import Mathlib

/-!
# job-aggregator: scraping engine core

A shallow embedding of the content hasher (`internal/scraper/engine.go`,
`generateJobHash`), the data model (`internal/models/job.go`), the token
bucket rate limiter (`pkg/ratelimit/ratelimit.go`) and the engine with its
workers and collectors (`internal/scraper/engine.go`), followed by the theorems
that settle the properties of the specification against them.

Conventions of the embedding:

* a Go `string` is a Lean `String`; the cast `[]byte(data)` keeps the content,
  so the digest function is taken on the string itself;
* a Go `int` is an `Int`; the limiter only ever decrements a positive token
  count or copies `maxTokens`, so no operation can overflow;
* `time.Time` is an `Int` (a clock reading), the zero time being `0`;
* a goroutine is modelled by the steps it takes, the scheduler by the order in
  which those steps are listed;
* a Go panic is the error branch of `Except`; in a run of the engine it is the
  field `panicked`, after which no goroutine takes a step.
-/

namespace models

/-- Job represents a job listing aggregated from various sources
(`internal/models/job.go`, `type Job struct`). -/
structure Job where
  ID : Int
  Title : String
  Company : String
  Location : String
  Salary : String
  Description : String
  URL : String
  Source : String
  RemoteOk : Bool
  JobType : String
  PostedAt : Int
  ScrapedAt : Int
  Hash : String
  CreatedAt : Int
  UpdatedAt : Int
deriving DecidableEq, Repr

end models

namespace scraper

open models

/-- One byte of a digest. -/
abbrev Byte := Fin 256

/-- The type of `sha256.Sum256` composed with the cast `[]byte(data)`: the
standard library function is a parameter of the embedding. -/
abbrev Digest := String → List Byte

/-- The lower-case hexadecimal digit of a nibble, as the verb `%x` prints it. -/
def hexDigit (n : Fin 16) : Char :=
  "0123456789abcdef".toList.getD n.val '0'

/-- The two hexadecimal digits `%x` prints for one byte. -/
def hexByte (b : Byte) : List Char :=
  [hexDigit ⟨b.val / 16, by omega⟩, hexDigit ⟨b.val % 16, by omega⟩]

/-- The string `fmt.Sprintf("%x", hash)` produces for a byte array. -/
def hexEncode (bs : List Byte) : String :=
  String.mk (bs.flatMap hexByte)

/-- The string `fmt.Sprintf("%s|%s|%s", job.Title, job.Company, job.Location)`
that `generateJobHash` feeds to SHA-256 (`engine.go`, line 169). -/
def hashData (job : Job) : String :=
  job.Title ++ "|" ++ job.Company ++ "|" ++ job.Location

/-- The function `generateJobHash` of `engine.go` (lines 167-172), over the
digest function `Sum256`. -/
def generateJobHash (Sum256 : Digest) (job : Job) : String :=
  let data := hashData job
  let hash := Sum256 data
  hexEncode hash

/-- A stand-in digest used to instantiate the parameter at concrete inputs: the
code points of the string, reduced to bytes. -/
def codePointDigest : Digest :=
  fun s => s.toList.map (fun c => (⟨c.toNat % 256, Nat.mod_lt _ (by decide)⟩ : Byte))

/-- The posting `job1` of `TestGenerateJobHash`. -/
def goDeveloper : Job :=
  { ID := 0, Title := "Go Developer", Company := "Tech Corp", Location := "Remote",
    Salary := "", Description := "", URL := "", Source := "", RemoteOk := false,
    JobType := "", PostedAt := 0, ScrapedAt := 0, Hash := "", CreatedAt := 0,
    UpdatedAt := 0 }

/-- The posting `job3` of `TestGenerateJobHash`. -/
def pythonDeveloper : Job :=
  { goDeveloper with Title := "Python Developer" }

/-- The posting `job1` again, with every field outside the identity triple
changed. -/
def goDeveloperElsewhere : Job :=
  { goDeveloper with
    ID := 17, Salary := "$120k - $160k", Description := "Looking for a developer",
    URL := "https://indeed.com/job/42", Source := "Indeed", RemoteOk := true,
    JobType := "Contract", PostedAt := 1700000000, ScrapedAt := 1700000500,
    Hash := "stale", CreatedAt := 3, UpdatedAt := 4 }

/-- A posting whose title holds the separator. -/
def pipeInTitle : Job :=
  { goDeveloper with Title := "Engineer|Backend", Company := "Acme", Location := "Remote" }

/-- A posting whose company holds the separator. -/
def pipeInCompany : Job :=
  { goDeveloper with Title := "Engineer", Company := "Backend|Acme", Location := "Remote" }

end scraper

namespace ratelimit

/-- RateLimiter implements a token bucket rate limiter (`ratelimit.go`,
`type RateLimiter struct`). The ticker and the stop channel are kept by the one
fact the code reads from each of them; `refilling` tells whether the goroutine
`refillTokens` started by `NewRateLimiter` is still in its loop. -/
structure RateLimiter where
  rate : Int
  tokens : Int
  maxTokens : Int
  tickerStopped : Bool
  stopChClosed : Bool
  refilling : Bool
deriving DecidableEq, Repr

/-- NewRateLimiter creates a new rate limiter and starts its refill goroutine
(`ratelimit.go`, lines 19-31). -/
def NewRateLimiter (requestsPerSecond : Int) : RateLimiter :=
  { rate := requestsPerSecond
    tokens := requestsPerSecond
    maxTokens := requestsPerSecond
    tickerStopped := false
    stopChClosed := false
    refilling := true }

/-- The method `tryAcquire` (`ratelimit.go`, lines 48-58): the returned flag
and the limiter after the call. -/
def tryAcquire (rl : RateLimiter) : Bool × RateLimiter :=
  if rl.tokens > 0 then
    (true, { rl with tokens := rl.tokens - 1 })
  else
    (false, rl)

/-- The channel on which the `select` of `refillTokens` receives. -/
inductive RefillEvent where
  | tick
  | stop
deriving DecidableEq, Repr

/-- One iteration of the loop of `refillTokens` (`ratelimit.go`, lines 60-73).
A goroutine that has returned takes no step; the `stopCh` case is ready only
once the channel is closed. -/
def refillTokens (ev : RefillEvent) (rl : RateLimiter) : RateLimiter :=
  if rl.refilling then
    match ev with
    | RefillEvent.tick => { rl with tokens := rl.maxTokens }
    | RefillEvent.stop =>
      if rl.stopChClosed then
        { rl with tickerStopped := true, refilling := false }
      else
        rl
  else
    rl

/-- The message of the runtime panic raised by `close` on a closed channel. -/
def closeOfClosedChannel : String := "close of closed channel"

/-- The method `Stop` (`ratelimit.go`, lines 75-78): `close(rl.stopCh)`, which
panics when the channel is closed already. -/
def Stop (rl : RateLimiter) : Except String RateLimiter :=
  if rl.stopChClosed then
    Except.error closeOfClosedChannel
  else
    Except.ok { rl with stopChClosed := true }

/-- The two causes a `context.Context` reports through `Err()`. -/
inductive CtxErr where
  | Canceled
  | DeadlineExceeded
deriving DecidableEq, Repr

/-- What `Wait` reads of its `context.Context`: `Err()`, which is non-nil
exactly when the channel `Done()` is closed. -/
structure Context where
  err : Option CtxErr
deriving DecidableEq, Repr

/-- The context `context.Background()`. -/
def Background : Context := { err := none }

/-- Cancelling a context: the first cause stays. -/
def Context.cancel (ctx : Context) (cause : CtxErr) : Context :=
  match ctx.err with
  | some _ => ctx
  | none => { err := some cause }

/-- What the rest of the program does while `Wait` is between two looks at its
`select`: the refill goroutine handles a tick, or the context is cancelled. -/
inductive EnvEvent where
  | tick
  | cancel (cause : CtxErr)
deriving DecidableEq, Repr

/-- The effect of one environment event on the context and the limiter. -/
def EnvEvent.apply (ev : EnvEvent) (s : Context × RateLimiter) : Context × RateLimiter :=
  match ev with
  | EnvEvent.tick => (s.1, refillTokens RefillEvent.tick s.2)
  | EnvEvent.cancel cause => (s.1.cancel cause, s.2)

/-- The effect of a run of environment events, in order. -/
def applyEnv (evs : List EnvEvent) (s : Context × RateLimiter) : Context × RateLimiter :=
  evs.foldl (fun acc ev => ev.apply acc) s

/-- What a call of `Wait` leaves behind: the returned error (`none` for `nil`),
the limiter and the context at the return, and the flags returned by the calls
of `tryAcquire` it made, in order. -/
structure WaitResult where
  err : Option CtxErr
  rl : RateLimiter
  ctx : Context
  calls : List Bool
deriving DecidableEq, Repr

/-- The method `Wait` (`ratelimit.go`, lines 33-46). The schedule lists, for
each iteration of the loop, the environment events that come before its
`select` (for the second and later iterations: during the sleep). The result is
`none` when the loop is still running at the end of the schedule. -/
def Wait : List (List EnvEvent) → Context → RateLimiter → Option WaitResult
  | [], _, _ => none
  | evs :: rest, ctx, rl =>
    let s := applyEnv evs (ctx, rl)
    match s.1.err with
    | some e => some { err := some e, rl := s.2, ctx := s.1, calls := [] }
    | none =>
      match tryAcquire s.2 with
      | (true, rl') => some { err := none, rl := rl', ctx := s.1, calls := [true] }
      | (false, rl') =>
        (Wait rest s.1 rl').map (fun r => { r with calls := false :: r.calls })

/-- The limiter after `n` calls of `tryAcquire` in a row, and the flags they
returned. -/
def acquireTimes : Nat → RateLimiter → List Bool × RateLimiter
  | 0, rl => ([], rl)
  | n + 1, rl =>
    let r := tryAcquire rl
    let rest := acquireTimes n r.2
    (r.1 :: rest.1, rest.2)

/-- An operation on the shared limiter: a worker calls `tryAcquire`, or the
refill goroutine handles a tick. -/
inductive Op where
  | acquire
  | tick
deriving DecidableEq, Repr

/-- The limiter after one operation, and whether a token was handed out. -/
def Op.step (op : Op) (rl : RateLimiter) : Bool × RateLimiter :=
  match op with
  | Op.acquire => tryAcquire rl
  | Op.tick => (false, refillTokens RefillEvent.tick rl)

/-- The limiter after a sequence of operations. -/
def runOps (ops : List Op) (rl : RateLimiter) : RateLimiter :=
  ops.foldl (fun acc op => (op.step acc).2) rl

/-- The number of successful acquisitions in a sequence of operations. -/
def successes : List Op → RateLimiter → Nat
  | [], _ => 0
  | op :: ops, rl =>
    let r := op.step rl
    (if r.1 then 1 else 0) + successes ops r.2

/-- The state invariant of a limiter of capacity `C`: the token count lies in
`0..C`, the capacity is `C`. -/
def WithinCapacity (C : Int) (rl : RateLimiter) : Prop :=
  0 ≤ rl.tokens ∧ rl.tokens ≤ C ∧ rl.maxTokens = C

/-- A limiter of capacity 2 whose tokens are used up. -/
def usedUp : RateLimiter := { NewRateLimiter 2 with tokens := 0 }

/-- What `Wait` returns on `usedUp` when a refill tick comes during its first
sleep. -/
def afterRefill : WaitResult :=
  { err := none, rl := { NewRateLimiter 2 with tokens := 1 }, ctx := Background,
    calls := [false, true] }

/-- A schedule for `Wait`: nothing happens before the first look at the
`select`, and a refill tick comes during the sleep that follows. -/
def tickDuringSleep : List (List EnvEvent) := [[], [EnvEvent.tick]]

/-- What `Wait` returns at its first attempt on a fresh limiter of capacity 2. -/
def firstToken : WaitResult :=
  { err := none, rl := { NewRateLimiter 2 with tokens := 1 }, ctx := Background,
    calls := [true] }

end ratelimit

namespace scraper

open ratelimit

/-- The interface `JobSource` (`engine.go`, lines 15-19): a name and, for a
query, the postings and the error that `Scrape` returns. -/
structure JobSource where
  Name : String
  Scrape : String → List models.Job × Option String

/-- Stats holds scraping statistics (`engine.go`, `type Stats struct`). -/
structure Stats where
  JobsScraped : Int
  Errors : Int
  StartTime : Int
  EndTime : Int
deriving DecidableEq, Repr

/-- Engine is the main scraper engine (`engine.go`, `type Engine struct`); of
the channel `errCh` the model keeps whether it is closed. -/
structure Engine where
  sources : List JobSource
  rateLimiter : RateLimiter
  workers : Int
  errChClosed : Bool
  stats : Stats

/-- NewEngine creates a new scraper engine (`engine.go`, lines 41-51). -/
def NewEngine (workers : Int) (rateLimit : Int) : Engine :=
  { sources := []
    rateLimiter := NewRateLimiter rateLimit
    workers := workers
    errChClosed := false
    stats := { JobsScraped := 0, Errors := 0, StartTime := 0, EndTime := 0 } }

/-- The method `Engine.Shutdown` (`engine.go`, lines 195-199): it stops the
rate limiter, and panics when `Stop` does. -/
def Engine.Shutdown (e : Engine) : Except String Engine :=
  match Stop e.rateLimiter with
  | Except.error p => Except.error p
  | Except.ok rl => Except.ok { e with rateLimiter := rl }

end scraper

/-! ## The engine: registry, workers, collectors -/

namespace ratelimit

/-- The text `Error()` gives for the two causes of the package `context`. -/
def CtxErr.Error : CtxErr → String
  | CtxErr.Canceled => "context canceled"
  | CtxErr.DeadlineExceeded => "context deadline exceeded"

end ratelimit

namespace scraper

open models ratelimit

/-- The method `Engine.RegisterSource` (`engine.go`, lines 53-57): it appends
the source to the registry; the log line is left out. -/
def Engine.RegisterSource (e : Engine) (source : JobSource) : Engine :=
  { e with sources := e.sources ++ [source] }

/-- The method `Engine.GetStats` (`engine.go`, lines 188-193): a copy of the
statistics. -/
def Engine.GetStats (e : Engine) : Stats :=
  e.stats

/-- An engine as `NewEngine` builds it, with the given sources registered in
order and nothing else done to it. -/
def freshEngine (workers rateLimit : Int) (sources : List JobSource) : Engine :=
  sources.foldl Engine.RegisterSource (NewEngine workers rateLimit)

/-- The capacity of the channel `jobsCh` made by `Start` (`engine.go`, line 65). -/
def jobsChCap : Nat := 1000

/-- The capacity of the channel `errCh` made by `NewEngine` (`engine.go`,
line 48). -/
def errChCap : Nat := 100

/-- The message of the runtime panic raised by a send on a closed channel. -/
def sendOnClosedChannel : String := "send on closed channel"

/-- The two lines of `worker` that stamp a posting (`engine.go`, lines 152-153):
`job.Hash = generateJobHash(job)` and `job.ScrapedAt = time.Now()`. -/
def tagJob (Sum256 : Digest) (now : Int) (job : Job) : Job :=
  { job with Hash := generateJobHash Sum256 job, ScrapedAt := now }

/-- Where a worker goroutine stands in `Engine.worker` (`engine.go`, lines
125-165): `ready` at the receive of `for source := range sources`, `waiting` in
the loop of `e.rateLimiter.Wait(ctx)`, `failing` at a send on `e.errCh`,
`sending` at the `select` that forwards `job` (stamped already, `rest` still to
come), `exited` after its return. -/
inductive Worker where
  | ready
  | waiting (source : JobSource)
  | failing (msg : String)
  | sending (source : JobSource) (job : Job) (rest : List Job)
  | exited

/-- Whether the worker has returned (and called `e.wg.Done()`). -/
def Worker.isExited : Worker → Bool
  | Worker.exited => true
  | _ => false

/-- The worker at the head of the loop over `sourceJobs` (`engine.go`, line
150): it stamps the next posting, or goes back for the next source when none is
left. -/
def Worker.forward (Sum256 : Digest) (now : Int) (source : JobSource) : List Job → Worker
  | [] => Worker.ready
  | job :: rest => Worker.sending source (tagJob Sum256 now job) rest

/-- Where the goroutine that called `Start` stands: at the `select` of line 112,
at `collectorWg.Wait()` of line 114, or returned with its two results. -/
inductive MainState where
  | selecting
  | draining
  | returned (jobs : List Job) (err : Option CtxErr)

/-- Whether `Start` has returned. -/
def MainState.isReturned : MainState → Bool
  | MainState.returned _ _ => true
  | _ => false

/-- The state of one call of `Engine.Start`: the engine (with its limiter, its
statistics and its channel `errCh`, of which `errCh` below is the buffer), the
context, the local channels and variables of `Start`, and its goroutines. The
field `scraped` logs the sources on which `Scrape` was called, in order;
`panicked` holds the message of a runtime panic, which ends the process. -/
structure Run where
  e : Engine
  ctx : Context
  query : String
  sourceCh : List JobSource
  workers : List Worker
  jobsCh : List Job
  jobsChClosed : Bool
  errCh : List String
  done : Bool
  jobs : List Job
  errors : List String
  collectorDone : Bool
  errCollectorDone : Bool
  main : MainState
  panicked : Option String
  scraped : List JobSource

/-- The method `Engine.Start` up to its `select` (`engine.go`, lines 59-110): it
records the start time, fills and closes the source queue and starts the two
collectors, the workers and the goroutine that waits for them. A goroutine that
is started later than another is one that is scheduled later. -/
def Engine.Start (e : Engine) (ctx : Context) (query : String) (now : Int) : Run :=
  { e := { e with stats := { e.stats with StartTime := now } }
    ctx := ctx
    query := query
    sourceCh := e.sources
    workers := List.replicate e.workers.toNat Worker.ready
    jobsCh := []
    jobsChClosed := false
    errCh := []
    done := false
    jobs := []
    errors := []
    collectorDone := false
    errCollectorDone := false
    main := MainState.selecting
    panicked := none
    scraped := [] }

/-- One step of one goroutine of a run, or of its environment. The clock reading
`now` is what `time.Now()` returns if the step reads the clock. -/
inductive Action where
  | worker (id : Nat) (now : Int)
  | workerDone (id : Nat)
  | collect
  | collectErr
  | close
  | selectDone
  | selectCtx
  | finish (now : Int)
  | tick
  | cancel (cause : CtxErr)
deriving DecidableEq, Repr

/-- Whether the action is a cancellation of the context. -/
def Action.isCancel : Action → Bool
  | Action.cancel _ => true
  | _ => false

/-- The next step of worker `id` (`engine.go`, lines 129-164), `none` when the
worker is blocked or gone.
* `ready`: it receives the next source, or returns when the closed queue is
  empty; with a source in hand it returns when the context is done (line 131).
* `waiting`: one iteration of the loop of `Wait`: the context's error is wrapped
  and is to be sent on `e.errCh`; or `tryAcquire` succeeds and `Scrape` is
  called, whose error is wrapped with the source's name, or whose postings are
  to be forwarded; a failed `tryAcquire` changes nothing.
* `failing`: the send on `e.errCh`, then `continue`.
* `sending`: the send case of the `select` of line 155. -/
def Run.stepWorker (Sum256 : Digest) (id : Nat) (now : Int) (s : Run) : Option Run :=
  match s.workers[id]? with
  | none => none
  | some Worker.exited => none
  | some Worker.ready =>
    match s.sourceCh with
    | [] => some { s with workers := s.workers.set id Worker.exited }
    | source :: rest =>
      match s.ctx.err with
      | some _ => some { s with sourceCh := rest, workers := s.workers.set id Worker.exited }
      | none =>
        some { s with sourceCh := rest, workers := s.workers.set id (Worker.waiting source) }
  | some (Worker.waiting source) =>
    match s.ctx.err with
    | some cause =>
      some { s with
        workers := s.workers.set id (Worker.failing ("rate limiter error: " ++ cause.Error)) }
    | none =>
      match tryAcquire s.e.rateLimiter with
      | (false, _) => none
      | (true, rl) =>
        match source.Scrape s.query with
        | (_, some err) =>
          some { s with
            e := { s.e with rateLimiter := rl }
            scraped := s.scraped ++ [source]
            workers :=
              s.workers.set id (Worker.failing (source.Name ++ " scraper failed: " ++ err)) }
        | (sourceJobs, none) =>
          some { s with
            e := { s.e with rateLimiter := rl }
            scraped := s.scraped ++ [source]
            workers := s.workers.set id (Worker.forward Sum256 now source sourceJobs) }
  | some (Worker.failing msg) =>
    if s.e.errChClosed then
      some { s with panicked := some sendOnClosedChannel }
    else if s.errCh.length < errChCap then
      some { s with errCh := s.errCh ++ [msg], workers := s.workers.set id Worker.ready }
    else
      none
  | some (Worker.sending source job rest) =>
    if s.jobsChClosed then
      some { s with panicked := some sendOnClosedChannel }
    else if s.jobsCh.length < jobsChCap then
      some { s with
        jobsCh := s.jobsCh ++ [job]
        workers := s.workers.set id (Worker.forward Sum256 now source rest) }
    else
      none

/-- One step of a run, `none` when the goroutine asked for is blocked or gone,
or when the process has panicked.
* `worker`: see `Run.stepWorker`; `workerDone`: a sending worker takes the case
  `<-ctx.Done()` of line 157 and returns.
* `collect`, `collectErr`: the two collectors (lines 72-78 and 82-88) receive one
  item, or leave their loop when their channel is closed and empty.
* `close`: the goroutine of lines 104-109, once every worker has returned.
* `selectDone`, `selectCtx`: the two cases of the `select` of line 112;
  `finish`: lines 114-117 and 122, once the posting collector is done.
* `tick`: the refill goroutine resets a bucket that is not full (a tick on a
  full bucket changes nothing); `cancel`: the context is cancelled. -/
def Run.step (Sum256 : Digest) (a : Action) (s : Run) : Option Run :=
  match s.panicked with
  | some _ => none
  | none =>
    match a with
    | Action.worker id now => s.stepWorker Sum256 id now
    | Action.workerDone id =>
      match s.workers[id]?, s.ctx.err with
      | some (Worker.sending _ _ _), some _ =>
        some { s with workers := s.workers.set id Worker.exited }
      | _, _ => none
    | Action.collect =>
      if s.collectorDone then none
      else
        match s.jobsCh with
        | job :: rest =>
          some { s with
            jobsCh := rest
            jobs := s.jobs ++ [job]
            e := { s.e with stats := { s.e.stats with JobsScraped := s.e.stats.JobsScraped + 1 } } }
        | [] => if s.jobsChClosed then some { s with collectorDone := true } else none
    | Action.collectErr =>
      if s.errCollectorDone then none
      else
        match s.errCh with
        | err :: rest =>
          some { s with
            errCh := rest
            errors := s.errors ++ [err]
            e := { s.e with stats := { s.e.stats with Errors := s.e.stats.Errors + 1 } } }
        | [] => if s.e.errChClosed then some { s with errCollectorDone := true } else none
    | Action.close =>
      if s.done then none
      else if s.workers.all Worker.isExited then
        if s.e.errChClosed then
          some { s with jobsChClosed := true, panicked := some closeOfClosedChannel }
        else
          some { s with jobsChClosed := true, e := { s.e with errChClosed := true }, done := true }
      else none
    | Action.selectDone =>
      match s.main with
      | MainState.selecting => if s.done then some { s with main := MainState.draining } else none
      | _ => none
    | Action.selectCtx =>
      match s.main, s.ctx.err with
      | MainState.selecting, some cause =>
        some { s with main := MainState.returned [] (some cause) }
      | _, _ => none
    | Action.finish now =>
      match s.main with
      | MainState.draining =>
        if s.collectorDone then
          some { s with
            e := { s.e with stats := { s.e.stats with EndTime := now } }
            main := MainState.returned s.jobs none }
        else none
      | _ => none
    | Action.tick =>
      if s.e.rateLimiter.refilling = true ∧ s.e.rateLimiter.tokens ≠ s.e.rateLimiter.maxTokens then
        some { s with e := { s.e with rateLimiter := refillTokens RefillEvent.tick s.e.rateLimiter } }
      else none
    | Action.cancel cause =>
      match s.ctx.err with
      | none => some { s with ctx := s.ctx.cancel cause }
      | some _ => none

/-- A run under a schedule: the actions are taken in order; `none` when one of
them is not possible where it comes. -/
def Run.exec (Sum256 : Digest) : List Action → Run → Option Run
  | [], s => some s
  | a :: rest, s => (s.step Sum256 a).bind (Run.exec Sum256 rest)

/-- The postings a source hands over for a query: those `Scrape` returned, when
it returned a nil error. -/
def okJobs (query : String) (source : JobSource) : List Job :=
  match source.Scrape query with
  | (sourceJobs, none) => sourceJobs
  | (_, some _) => []

/-- A posting without the two fields the worker stamps. -/
def unstamped (job : Job) : Job :=
  { job with Hash := "", ScrapedAt := 0 }

end scraper

namespace scraper

open models ratelimit

/-- The steps of `Run.step`, one rule for each way a step can go; `Run.step`
takes a step exactly when one of the rules applies (`Run.step_transition`). -/
inductive Transition (Sum256 : Digest) : Action → Run → Run → Prop where
  | workerExit (s : Run) (id : Nat) (now : Int) (hp : s.panicked = none)
      (hw : s.workers[id]? = some Worker.ready) (hq : s.sourceCh = []) :
      Transition Sum256 (Action.worker id now) s
        { s with workers := s.workers.set id Worker.exited }
  | workerQuit (s : Run) (id : Nat) (now : Int) (source : JobSource) (rest : List JobSource)
      (cause : CtxErr) (hp : s.panicked = none)
      (hw : s.workers[id]? = some Worker.ready) (hq : s.sourceCh = source :: rest)
      (hc : s.ctx.err = some cause) :
      Transition Sum256 (Action.worker id now) s
        { s with sourceCh := rest, workers := s.workers.set id Worker.exited }
  | workerTake (s : Run) (id : Nat) (now : Int) (source : JobSource) (rest : List JobSource)
      (hp : s.panicked = none)
      (hw : s.workers[id]? = some Worker.ready) (hq : s.sourceCh = source :: rest)
      (hc : s.ctx.err = none) :
      Transition Sum256 (Action.worker id now) s
        { s with sourceCh := rest, workers := s.workers.set id (Worker.waiting source) }
  | waitCancelled (s : Run) (id : Nat) (now : Int) (source : JobSource) (cause : CtxErr)
      (hp : s.panicked = none)
      (hw : s.workers[id]? = some (Worker.waiting source)) (hc : s.ctx.err = some cause) :
      Transition Sum256 (Action.worker id now) s
        { s with
          workers := s.workers.set id (Worker.failing ("rate limiter error: " ++ cause.Error)) }
  | scrapeFailed (s : Run) (id : Nat) (now : Int) (source : JobSource)
      (sourceJobs : List Job) (err : String) (hp : s.panicked = none)
      (hw : s.workers[id]? = some (Worker.waiting source)) (hc : s.ctx.err = none)
      (ht : 0 < s.e.rateLimiter.tokens)
      (hs : source.Scrape s.query = (sourceJobs, some err)) :
      Transition Sum256 (Action.worker id now) s
        { s with
          e := { s.e with
            rateLimiter := { s.e.rateLimiter with tokens := s.e.rateLimiter.tokens - 1 } }
          scraped := s.scraped ++ [source]
          workers :=
            s.workers.set id (Worker.failing (source.Name ++ " scraper failed: " ++ err)) }
  | scrapeOk (s : Run) (id : Nat) (now : Int) (source : JobSource)
      (sourceJobs : List Job) (hp : s.panicked = none)
      (hw : s.workers[id]? = some (Worker.waiting source)) (hc : s.ctx.err = none)
      (ht : 0 < s.e.rateLimiter.tokens)
      (hs : source.Scrape s.query = (sourceJobs, none)) :
      Transition Sum256 (Action.worker id now) s
        { s with
          e := { s.e with
            rateLimiter := { s.e.rateLimiter with tokens := s.e.rateLimiter.tokens - 1 } }
          scraped := s.scraped ++ [source]
          workers := s.workers.set id (Worker.forward Sum256 now source sourceJobs) }
  | errPanic (s : Run) (id : Nat) (now : Int) (msg : String) (hp : s.panicked = none)
      (hw : s.workers[id]? = some (Worker.failing msg)) (hx : s.e.errChClosed = true) :
      Transition Sum256 (Action.worker id now) s
        { s with panicked := some sendOnClosedChannel }
  | errPush (s : Run) (id : Nat) (now : Int) (msg : String) (hp : s.panicked = none)
      (hw : s.workers[id]? = some (Worker.failing msg)) (hx : s.e.errChClosed = false)
      (hl : s.errCh.length < errChCap) :
      Transition Sum256 (Action.worker id now) s
        { s with errCh := s.errCh ++ [msg], workers := s.workers.set id Worker.ready }
  | jobPanic (s : Run) (id : Nat) (now : Int) (source : JobSource) (job : Job)
      (rest : List Job) (hp : s.panicked = none)
      (hw : s.workers[id]? = some (Worker.sending source job rest))
      (hx : s.jobsChClosed = true) :
      Transition Sum256 (Action.worker id now) s
        { s with panicked := some sendOnClosedChannel }
  | jobPush (s : Run) (id : Nat) (now : Int) (source : JobSource) (job : Job)
      (rest : List Job) (hp : s.panicked = none)
      (hw : s.workers[id]? = some (Worker.sending source job rest))
      (hx : s.jobsChClosed = false) (hl : s.jobsCh.length < jobsChCap) :
      Transition Sum256 (Action.worker id now) s
        { s with
          jobsCh := s.jobsCh ++ [job]
          workers := s.workers.set id (Worker.forward Sum256 now source rest) }
  | workerDone (s : Run) (id : Nat) (source : JobSource) (job : Job) (rest : List Job)
      (cause : CtxErr) (hp : s.panicked = none)
      (hw : s.workers[id]? = some (Worker.sending source job rest))
      (hc : s.ctx.err = some cause) :
      Transition Sum256 (Action.workerDone id) s
        { s with workers := s.workers.set id Worker.exited }
  | collectJob (s : Run) (job : Job) (rest : List Job) (hp : s.panicked = none)
      (hd : s.collectorDone = false) (hq : s.jobsCh = job :: rest) :
      Transition Sum256 Action.collect s
        { s with
          jobsCh := rest
          jobs := s.jobs ++ [job]
          e := { s.e with
            stats := { s.e.stats with JobsScraped := s.e.stats.JobsScraped + 1 } } }
  | collectEnd (s : Run) (hp : s.panicked = none)
      (hd : s.collectorDone = false) (hq : s.jobsCh = []) (hx : s.jobsChClosed = true) :
      Transition Sum256 Action.collect s { s with collectorDone := true }
  | collectErrItem (s : Run) (err : String) (rest : List String) (hp : s.panicked = none)
      (hd : s.errCollectorDone = false) (hq : s.errCh = err :: rest) :
      Transition Sum256 Action.collectErr s
        { s with
          errCh := rest
          errors := s.errors ++ [err]
          e := { s.e with stats := { s.e.stats with Errors := s.e.stats.Errors + 1 } } }
  | collectErrEnd (s : Run) (hp : s.panicked = none)
      (hd : s.errCollectorDone = false) (hq : s.errCh = []) (hx : s.e.errChClosed = true) :
      Transition Sum256 Action.collectErr s { s with errCollectorDone := true }
  | closePanic (s : Run) (hp : s.panicked = none) (hd : s.done = false)
      (hw : s.workers.all Worker.isExited = true) (hx : s.e.errChClosed = true) :
      Transition Sum256 Action.close s
        { s with jobsChClosed := true, panicked := some closeOfClosedChannel }
  | closeAll (s : Run) (hp : s.panicked = none) (hd : s.done = false)
      (hw : s.workers.all Worker.isExited = true) (hx : s.e.errChClosed = false) :
      Transition Sum256 Action.close s
        { s with jobsChClosed := true, e := { s.e with errChClosed := true }, done := true }
  | selectDone (s : Run) (hp : s.panicked = none) (hm : s.main = MainState.selecting)
      (hd : s.done = true) :
      Transition Sum256 Action.selectDone s { s with main := MainState.draining }
  | selectCtx (s : Run) (cause : CtxErr) (hp : s.panicked = none)
      (hm : s.main = MainState.selecting) (hc : s.ctx.err = some cause) :
      Transition Sum256 Action.selectCtx s
        { s with main := MainState.returned [] (some cause) }
  | finish (s : Run) (now : Int) (hp : s.panicked = none) (hm : s.main = MainState.draining)
      (hd : s.collectorDone = true) :
      Transition Sum256 (Action.finish now) s
        { s with
          e := { s.e with stats := { s.e.stats with EndTime := now } }
          main := MainState.returned s.jobs none }
  | tick (s : Run) (hp : s.panicked = none) (hr : s.e.rateLimiter.refilling = true)
      (ht : s.e.rateLimiter.tokens ≠ s.e.rateLimiter.maxTokens) :
      Transition Sum256 Action.tick s
        { s with
          e := { s.e with
            rateLimiter := { s.e.rateLimiter with tokens := s.e.rateLimiter.maxTokens } } }
  | cancel (s : Run) (cause : CtxErr) (hp : s.panicked = none) (hc : s.ctx.err = none) :
      Transition Sum256 (Action.cancel cause) s { s with ctx := { err := some cause } }

end scraper

namespace scraper

open models ratelimit

/-- An upper bound on the steps a worker can still cause: its own, and those of
the collectors on what it will send. -/
def Worker.cost (query : String) : Worker → Nat
  | Worker.ready => 1
  | Worker.waiting source => 5 + 2 * (source.Scrape query).1.length
  | Worker.failing _ => 3
  | Worker.sending _ _ rest => 2 * rest.length + 3
  | Worker.exited => 0

/-- An upper bound on the steps a source in the queue can still cause. -/
def sourceCost (query : String) (source : JobSource) : Nat :=
  5 + 2 * (source.Scrape query).1.length

/-- The steps the caller of `Start` has before it. -/
def MainState.cost : MainState → Nat
  | MainState.selecting => 2
  | MainState.draining => 1
  | MainState.returned _ _ => 0

/-- An upper bound on the number of steps a run can still take. -/
def Run.cost (s : Run) : Nat :=
  (s.sourceCh.map (sourceCost s.query)).sum + (s.workers.map (Worker.cost s.query)).sum +
    s.jobsCh.length + s.errCh.length +
    (if s.collectorDone then 0 else 1) + (if s.errCollectorDone then 0 else 1) +
    (if s.done then 0 else 1) + s.main.cost +
    (if s.ctx.err.isSome then 0 else 1) +
    (if s.e.rateLimiter.tokens = s.e.rateLimiter.maxTokens then 0 else 1) +
    (if s.panicked.isSome then 0 else 1)

/-- What holds in every state of a run of `Start` on the engine `e0` with the
query `q`, whatever the schedule: how the flags of the channels, the collectors
and the caller depend on one another, and what the counters count. -/
structure Run.Consistent (e0 : Engine) (q : String) (s : Run) : Prop where
  registry : s.e.sources = e0.sources
  sameQuery : s.query = q
  refilling : s.e.rateLimiter.refilling = e0.rateLimiter.refilling
  capacity : s.e.rateLimiter.maxTokens = e0.rateLimiter.maxTokens
  workerCount : s.workers.length = e0.workers.toNat
  doneExited : s.done = true →
    s.workers.all Worker.isExited = true ∧ s.jobsChClosed = true ∧ s.e.errChClosed = true
  closedExited : s.jobsChClosed = true → s.workers.all Worker.isExited = true
  collected : s.collectorDone = true → s.jobsChClosed = true ∧ s.jobsCh = []
  draining : s.main = MainState.draining → s.done = true
  returnedOk : ∀ js, s.main = MainState.returned js none →
    js = s.jobs ∧ s.collectorDone = true ∧ s.done = true
  returnedErr : ∀ js cause, s.main = MainState.returned js (some cause) →
    js = [] ∧ s.ctx.err = some cause
  jobCount : s.e.stats.JobsScraped = e0.stats.JobsScraped + s.jobs.length
  errCount : s.e.stats.Errors = e0.stats.Errors + s.errors.length
  endTime : (∀ js, s.main ≠ MainState.returned js none) →
    s.e.stats.EndTime = e0.stats.EndTime

/-- The posting is one that a registered source returned with a nil error,
stamped by a worker. -/
def FromSource (Sum256 : Digest) (e0 : Engine) (q : String) (job : Job) : Prop :=
  ∃ source ∈ e0.sources, (source.Scrape q).2 = none ∧
    ∃ job0 ∈ (source.Scrape q).1, ∃ now : Int, job = tagJob Sum256 now job0

/-- What a worker holds comes from a registered source. -/
def Worker.Stamped (Sum256 : Digest) (e0 : Engine) (q : String) : Worker → Prop
  | Worker.waiting source => source ∈ e0.sources
  | Worker.sending source job rest =>
    source ∈ e0.sources ∧ (source.Scrape q).2 = none ∧ FromSource Sum256 e0 q job ∧
      ∀ r ∈ rest, r ∈ (source.Scrape q).1
  | _ => True

/-- Every posting in flight or collected comes, stamped, from a registered
source. -/
structure Run.Stamped (Sum256 : Digest) (e0 : Engine) (q : String) (s : Run) : Prop where
  queue : ∀ source ∈ s.sourceCh, source ∈ e0.sources
  held : ∀ w ∈ s.workers, w.Stamped Sum256 e0 q
  channel : ∀ job ∈ s.jobsCh, FromSource Sum256 e0 q job
  result : ∀ job ∈ s.jobs, FromSource Sum256 e0 q job

/-- What holds in every state of a run on a fresh engine whose context is not
cancelled: no panic, the error channel is closed only by the goroutine that
closes `done`, and a worker returns only when the queue is empty. -/
structure Run.Live (s : Run) : Prop where
  ctxLive : s.ctx.err = none
  noPanic : s.panicked = none
  errOpen : s.e.errChClosed = s.done
  drained : ∀ w ∈ s.workers, w.isExited = true → s.sourceCh = []
  errCollector : s.errCollectorDone = true → s.e.errChClosed = true

/-- The postings a worker has still to forward, unstamped. -/
def Worker.pending (q : String) : Worker → Multiset Job
  | Worker.waiting source => ((okJobs q source).map unstamped : List Job)
  | Worker.sending _ job rest => ((job :: rest).map unstamped : List Job)
  | _ => 0

/-- The source a worker has taken from the queue and not scraped yet. -/
def Worker.holding : Worker → Multiset JobSource
  | Worker.waiting source => {source}
  | _ => 0

/-- The failure a worker has still to report or to meet. -/
def Worker.failure (q : String) : Worker → Multiset String
  | Worker.waiting source =>
    match source.Scrape q with
    | (_, some err) => {source.Name ++ " scraper failed: " ++ err}
    | (_, none) => 0
  | Worker.failing msg => {msg}
  | _ => 0

/-- The message of the failure of a source, if it fails. -/
def failureOf (q : String) (source : JobSource) : List String :=
  match source.Scrape q with
  | (_, some err) => [source.Name ++ " scraper failed: " ++ err]
  | (_, none) => []

/-- What is conserved along a run whose context is not cancelled: the postings
of the successful sources, the sources themselves, and the failures. -/
structure Run.Accounted (e0 : Engine) (q : String) (s : Run) : Prop where
  postings :
    ((s.jobs.map unstamped : List Job) : Multiset Job) + (s.jobsCh.map unstamped : List Job) +
        ((s.sourceCh.flatMap (okJobs q)).map unstamped : List Job) +
        (s.workers.map (Worker.pending q)).sum =
      ((e0.sources.flatMap (okJobs q)).map unstamped : List Job)
  sources :
    (s.scraped : Multiset JobSource) + s.sourceCh + (s.workers.map Worker.holding).sum =
      e0.sources
  failures :
    (s.errors : Multiset String) + s.errCh + (s.sourceCh.flatMap (failureOf q) : List String) +
        (s.workers.map (Worker.failure q)).sum =
      (e0.sources.flatMap (failureOf q) : List String)

end scraper

namespace scraper

open models ratelimit

/-- A posting with the given title, for the examples. -/
def postingTitled (title : String) : Job :=
  { goDeveloper with Title := title }

/-- A source that returns two postings and a nil error. -/
def boardA : JobSource :=
  { Name := "A", Scrape := fun _ => ([postingTitled "a1", postingTitled "a2"], none) }

/-- A second source that returns two postings and a nil error. -/
def boardB : JobSource :=
  { Name := "B", Scrape := fun _ => ([postingTitled "b1", postingTitled "b2"], none) }

/-- A third source that returns two postings and a nil error. -/
def boardC : JobSource :=
  { Name := "C", Scrape := fun _ => ([postingTitled "c1", postingTitled "c2"], none) }

/-- A source that returns a posting together with an error. -/
def brokenBoard : JobSource :=
  { Name := "Broken", Scrape := fun _ => ([postingTitled "partial"], some "boom") }

/-- A source that returns one posting on which it has set a Hash itself. -/
def staleBoard : JobSource :=
  { Name := "Stale", Scrape := fun _ => ([{ postingTitled "s1" with Hash := "stale" }], none) }

/-- The end-to-end scenario: three sources of two postings each, three workers,
capacity 3, a context that is never cancelled. -/
def threeBoards : Run :=
  (freshEngine 3 3 [boardA, boardB, boardC]).Start Background "golang" 0

/-- A schedule for `threeBoards` in which the three workers advance in turn. -/
def inTurn : List Action :=
  [Action.worker 0 1, Action.worker 1 1, Action.worker 2 1,
   Action.worker 0 2, Action.worker 1 2, Action.worker 2 2,
   Action.worker 0 3, Action.worker 1 3, Action.worker 2 3,
   Action.collect, Action.collect, Action.collect,
   Action.worker 0 4, Action.worker 1 4, Action.worker 2 4,
   Action.collect, Action.collect, Action.collect,
   Action.worker 0 5, Action.worker 1 5, Action.worker 2 5,
   Action.close, Action.collect, Action.selectDone, Action.finish 9]

/-- The state of `threeBoards` after the schedule `inTurn`. -/
def threeBoardsDone : Run :=
  (Run.exec codePointDigest inTurn threeBoards).getD threeBoards

/-- A run with one good and one failing source, one worker, capacity 2. -/
def mixedBoards : Run :=
  (freshEngine 1 2 [boardA, brokenBoard]).Start Background "golang" 0

/-- A schedule for `mixedBoards` that lets `Start` return while the error of
the failing source is still in the buffer of `errCh`. -/
def errorLeftBehind : List Action :=
  [Action.worker 0 1, Action.worker 0 2, Action.worker 0 3, Action.collect,
   Action.worker 0 4, Action.collect, Action.worker 0 5, Action.worker 0 6,
   Action.worker 0 7, Action.worker 0 8, Action.close, Action.collect,
   Action.selectDone, Action.finish 9]

/-- The state of `mixedBoards` after the schedule `errorLeftBehind`. -/
def mixedBoardsReturned : Run :=
  (Run.exec codePointDigest errorLeftBehind mixedBoards).getD mixedBoards

/-- The state of `mixedBoards` after `errorLeftBehind` and the two steps the
error collector then takes. -/
def mixedBoardsUnwound : Run :=
  (Run.exec codePointDigest (errorLeftBehind ++ [Action.collectErr, Action.collectErr])
    mixedBoards).getD mixedBoards

end scraper

namespace scraper

open models ratelimit

/-- A run whose only source fails, one worker, capacity 1. -/
def onlyBroken : Run :=
  (freshEngine 1 1 [brokenBoard]).Start Background "golang" 0

/-- A schedule for `onlyBroken` up to the return of `Start`. -/
def failThenReturn : List Action :=
  [Action.worker 0 1, Action.worker 0 2, Action.worker 0 3, Action.worker 0 4,
   Action.close, Action.collect, Action.selectDone, Action.finish 9]

/-- The state of `onlyBroken` after the schedule `failThenReturn`. -/
def onlyBrokenReturned : Run :=
  (Run.exec codePointDigest failThenReturn onlyBroken).getD onlyBroken

/-- A context that can still be cancelled: one made by `context.WithCancel` or
`context.WithTimeout`, not done yet. -/
def pendingContext : Context := { err := none }

/-- A run with one source and one worker under a context that can be
cancelled. -/
def cancellable : Run :=
  (freshEngine 1 1 [boardA]).Start pendingContext "golang" 0

/-- A schedule for `cancellable`: the context is cancelled before the worker has
done anything, the worker then returns, and the caller looks at its `select`
only after `done` has been closed, and takes that case. -/
def doneWins : List Action :=
  [Action.cancel CtxErr.Canceled, Action.worker 0 1, Action.close, Action.collect,
   Action.selectDone, Action.finish 9]

/-- The state of `cancellable` after the schedule `doneWins`. -/
def cancellableDone : Run :=
  (Run.exec codePointDigest doneWins cancellable).getD cancellable

/-- The state of `cancellable` after the cancellation alone. -/
def cancellableCancelled : Run :=
  (Run.exec codePointDigest [Action.cancel CtxErr.Canceled] cancellable).getD cancellable

/-- A first run on a fresh engine with one source and one worker. -/
def firstRun : Run :=
  (freshEngine 1 2 [boardA]).Start Background "golang" 0

/-- A schedule that takes `firstRun` to the return of `Start` and lets both
collectors leave their loops. -/
def oneBoard : List Action :=
  [Action.worker 0 1, Action.worker 0 2, Action.worker 0 3, Action.worker 0 4,
   Action.worker 0 5, Action.collect, Action.collect, Action.close, Action.collect,
   Action.collectErr, Action.selectDone, Action.finish 9]

/-- The state of `firstRun` after the schedule `oneBoard`. -/
def firstRunDone : Run :=
  (Run.exec codePointDigest oneBoard firstRun).getD firstRun

/-- A second call of `Start` on the engine that `firstRun` leaves behind. -/
def secondRun : Run :=
  firstRunDone.e.Start Background "golang" 10

/-- A schedule for `secondRun` up to the point where its worker has returned and
its two postings are collected. -/
def oneBoardAgain : List Action :=
  [Action.worker 0 11, Action.worker 0 12, Action.worker 0 13, Action.worker 0 14,
   Action.worker 0 15, Action.collect, Action.collect]

/-- The state of `secondRun` after the schedule `oneBoardAgain`. -/
def secondRunCollected : Run :=
  (Run.exec codePointDigest oneBoardAgain secondRun).getD secondRun

/-- The state of `secondRun` after `oneBoardAgain` and the step of the goroutine
that closes the channels. -/
def secondRunClosing : Run :=
  (Run.exec codePointDigest (oneBoardAgain ++ [Action.close]) secondRun).getD secondRun

/-- The state of `onlyBroken` once its worker has taken the source and stands in
`Wait`. -/
def onlyBrokenWaiting : Run :=
  (Run.exec codePointDigest [Action.worker 0 1] onlyBroken).getD onlyBroken

/-- A run whose only source sets a Hash of its own on its posting. -/
def staleRun : Run :=
  (freshEngine 1 1 [staleBoard]).Start Background "golang" 0

/-- A schedule for `staleRun` up to the return of `Start`. -/
def oneStale : List Action :=
  [Action.worker 0 1, Action.worker 0 2, Action.worker 0 3, Action.collect,
   Action.worker 0 4, Action.close, Action.collect, Action.selectDone, Action.finish 9]

/-- The state of `staleRun` after the schedule `oneStale`. -/
def staleRunDone : Run :=
  (Run.exec codePointDigest oneStale staleRun).getD staleRun

end scraper

/-! ## The mock Indeed adapter, and further examples -/

namespace scraper

open models ratelimit

/-- An outcome of the random generator of `math/rand`: for each call made to
it, in order, the raw natural number behind the call when it is an `Intn` and
the value returned when it is a `Float32`. -/
structure Rand where
  ints : Nat → Nat
  floats : Nat → ℚ

/-- The value `rand.Intn(n)` returns at the given call, for `n > 0`: a number
below `n`. -/
def Rand.Intn (r : Rand) (call n : Nat) : Nat :=
  r.ints call % n

/-- The value `rand.Float32()` returns at the given call, a float32 taken as
the rational number it is. -/
def Rand.Float32 (r : Rand) (call : Nat) : ℚ :=
  r.floats call

/-- The slice `jobTitles` of `IndeedScraper.Scrape` (`sources.go`, lines 40-49). -/
def indeedJobTitles : List String :=
  ["Senior Go Developer", "Backend Engineer - Golang", "Full Stack Developer (Go/React)",
   "DevOps Engineer", "Site Reliability Engineer", "Cloud Platform Engineer",
   "Microservices Developer", "Software Engineer - Backend"]

/-- The slice `companies` of `IndeedScraper.Scrape` (lines 51-54). -/
def indeedCompanies : List String :=
  ["Tech Corp", "StartupXYZ", "CloudSystems Inc", "DataFlow Technologies",
   "WebScale Solutions"]

/-- The slice `locations` of `IndeedScraper.Scrape` (lines 56-59). -/
def indeedLocations : List String :=
  ["San Francisco, CA", "New York, NY", "Remote", "Austin, TX", "Seattle, WA",
   "Boston, MA"]

/-- The slice `jobTypes` of `IndeedScraper.Scrape` (line 61). -/
def indeedJobTypes : List String :=
  ["Full-time", "Contract", "Part-time"]

/-- The duration `time.Hour`, in nanoseconds. -/
def hour : Int := 3600000000000

/-- The float32 nearest to the constant `0.3`, with which line 78 compares. -/
def threeTenths : ℚ := 10066330 / 33554432

/-- The method `IndeedScraper.Name` (`sources.go`, lines 24-27). -/
def IndeedScraper.Name : String := "Indeed"

/-- One iteration of the loop of `IndeedScraper.Scrape` (`sources.go`, lines
66-82): the posting it appends, and the index of the next call of the random
generator. The calls are made in the order of the fields of the literal. -/
def indeedJob (r : Rand) (now : Int) (query : String) (call : Nat) : Job × Nat :=
  let job : Job :=
    { ID := 0
      Title := indeedJobTitles.getD (r.Intn call indeedJobTitles.length) ""
      Company := indeedCompanies.getD (r.Intn (call + 1) indeedCompanies.length) ""
      Location := indeedLocations.getD (r.Intn (call + 2) indeedLocations.length) ""
      Salary := ""
      Description :=
        "Looking for an experienced developer with " ++ toString (r.Intn (call + 3) 5 + 1) ++
          "+ years in Go. " ++ query
      URL := "https://indeed.com/job/" ++ toString (r.Intn (call + 4) 100000)
      Source := "Indeed"
      RemoteOk := decide (r.Float32 (call + 5) > 1 / 2)
      JobType := indeedJobTypes.getD (r.Intn (call + 6) indeedJobTypes.length) ""
      PostedAt := now - (r.Intn (call + 7) 30 : Int) * 24 * hour
      ScrapedAt := 0
      Hash := ""
      CreatedAt := 0
      UpdatedAt := 0 }
  if r.Float32 (call + 8) > threeTenths then
    ({ job with
        Salary :=
          "$" ++ toString (100 + r.Intn (call + 9) 100) ++ "k - $" ++
            toString (150 + r.Intn (call + 10) 100) ++ "k" },
      call + 11)
  else
    (job, call + 9)

/-- The loop of `IndeedScraper.Scrape` (line 65) with `n` iterations to go, at
iteration `i`; `clock i` is what `time.Now()` returns in iteration `i`. -/
def indeedJobs (r : Rand) (clock : Nat → Int) (query : String) : Nat → Nat → Nat → List Job
  | 0, _, _ => []
  | n + 1, i, call =>
    let p := indeedJob r (clock i) query call
    p.1 :: indeedJobs r clock query n (i + 1) p.2

/-- The method `IndeedScraper.Scrape` (`sources.go`, lines 29-86) under an
outcome of the random generator: call 0 is the `rand.Intn(500)` of the sleep,
call 1 the `rand.Intn(6)` of `numJobs`. -/
def IndeedScraper.Scrape (r : Rand) (clock : Nat → Int) (query : String) :
    List Job × Option String :=
  let numJobs := 5 + r.Intn 1 6
  (indeedJobs r clock query numJobs 0 2, none)

/-- The adapter `NewIndeedScraper()` as a `JobSource`, under an outcome of the
random generator and of the clock. -/
def NewIndeedScraper (r : Rand) (clock : Nat → Int) : JobSource :=
  { Name := IndeedScraper.Name, Scrape := IndeedScraper.Scrape r clock }

/-- An outcome of the random generator, for the examples. -/
def sampleOutcome : Rand :=
  { ints := fun i => 7 * i + 3, floats := fun _ => 1 / 2 }

/-- A run on an engine built with no worker, capacity 3, one source. -/
def noWorkers : Run :=
  (freshEngine 0 3 [boardA]).Start Background "golang" 0

/-- The schedule of `noWorkers` up to the return of `Start`. -/
def closeAtOnce : List Action :=
  [Action.close, Action.collect, Action.selectDone, Action.finish 9]

/-- The state of `noWorkers` after the schedule `closeAtOnce`. -/
def noWorkersDone : Run :=
  (Run.exec codePointDigest closeAtOnce noWorkers).getD noWorkers

/-- A first run on a fresh engine whose only source fails, one worker,
capacity 2. -/
def brokenFirst : Run :=
  (freshEngine 1 2 [brokenBoard]).Start Background "golang" 0

/-- The state of `brokenFirst` once `Start` has returned and the error collector
has taken the error and left its loop. -/
def brokenFirstDone : Run :=
  (Run.exec codePointDigest (failThenReturn ++ [Action.collectErr, Action.collectErr])
    brokenFirst).getD brokenFirst

/-- A second call of `Start` on the engine that `brokenFirst` leaves behind. -/
def brokenSecond : Run :=
  brokenFirstDone.e.Start Background "golang" 10

/-- The state of `brokenSecond` once its worker has taken the source, has got a
token and has called `Scrape`, which failed. -/
def brokenSecondFailing : Run :=
  (Run.exec codePointDigest [Action.worker 0 11, Action.worker 0 12] brokenSecond).getD
    brokenSecond

/-- The state of `brokenSecond` after the worker's send on `e.errCh`. -/
def brokenSecondPanicked : Run :=
  (Run.exec codePointDigest [Action.worker 0 11, Action.worker 0 12, Action.worker 0 13]
    brokenSecond).getD brokenSecond

end scraper

/-! ## The content hasher -/

namespace scraper

open models

theorem hexDigit_injective : ∀ a b : Fin 16, hexDigit a = hexDigit b → a = b := by
  decide

theorem hexByte_injective (a b : Byte) (h : hexByte a = hexByte b) : a = b := by
  simp only [hexByte, List.cons.injEq, and_true] at h
  have h1 := hexDigit_injective _ _ h.1
  have h2 := hexDigit_injective _ _ h.2
  simp only [Fin.mk.injEq] at h1 h2
  apply Fin.ext
  omega

theorem flatMap_hexByte_injective :
    ∀ xs ys : List Byte, xs.flatMap hexByte = ys.flatMap hexByte → xs = ys := by
  intro xs
  induction xs with
  | nil =>
    intro ys h
    cases ys with
    | nil => rfl
    | cons y ys => simp [List.flatMap_cons, hexByte] at h
  | cons x xs ih =>
    intro ys h
    cases ys with
    | nil => simp [List.flatMap_cons, hexByte] at h
    | cons y ys =>
      simp only [List.flatMap_cons, hexByte, List.cons_append, List.nil_append,
        List.cons.injEq] at h
      obtain ⟨h1, h2, h3⟩ := h
      have hxy : x = y := hexByte_injective x y (by simp [hexByte, h1, h2])
      rw [hxy, ih ys h3]

theorem hexEncode_injective (xs ys : List Byte) (h : hexEncode xs = hexEncode ys) :
    xs = ys := by
  unfold hexEncode at h
  exact flatMap_hexByte_injective xs ys (congrArg String.data h)

theorem hashData_data (job : Job) :
    (hashData job).data =
      job.Title.data ++ ('|' :: (job.Company.data ++ ('|' :: job.Location.data))) := by
  simp [hashData, String.data_append]

/-- C1. Two postings with equal Title, Company and Location get the same
fingerprint from `generateJobHash`, whatever digest function stands for SHA-256
and whatever their other fields hold (description, salary, URL, source, remote
flag, job type, timestamps, ID, and a Hash set beforehand). -/
theorem generateJobHash_eq_of_identity_eq (Sum256 : Digest) (p1 p2 : Job)
    (hT : p1.Title = p2.Title) (hC : p1.Company = p2.Company)
    (hL : p1.Location = p2.Location) :
    generateJobHash Sum256 p1 = generateJobHash Sum256 p2 := by
  simp only [generateJobHash, hashData, hT, hC, hL]

theorem generateJobHash_eq_of_identity_eq_witness :
    goDeveloper.Title = goDeveloperElsewhere.Title ∧
    goDeveloper.Company = goDeveloperElsewhere.Company ∧
    goDeveloper.Location = goDeveloperElsewhere.Location ∧
    goDeveloper ≠ goDeveloperElsewhere ∧
    generateJobHash codePointDigest goDeveloper =
      generateJobHash codePointDigest goDeveloperElsewhere :=
  ⟨rfl, rfl, rfl, by decide,
    generateJobHash_eq_of_identity_eq codePointDigest goDeveloper goDeveloperElsewhere
      rfl rfl rfl⟩

/-- C2. When two postings differ in exactly one of Title, Company and Location
and agree on the other two, the strings `generateJobHash` feeds to SHA-256
differ; so for every digest function that does not collide on these two
strings, the two fingerprints differ. -/
theorem generateJobHash_ne_of_one_field_ne (p1 p2 : Job)
    (h : (p1.Title ≠ p2.Title ∧ p1.Company = p2.Company ∧ p1.Location = p2.Location) ∨
         (p1.Title = p2.Title ∧ p1.Company ≠ p2.Company ∧ p1.Location = p2.Location) ∨
         (p1.Title = p2.Title ∧ p1.Company = p2.Company ∧ p1.Location ≠ p2.Location)) :
    hashData p1 ≠ hashData p2 ∧
    ∀ Sum256 : Digest,
      (Sum256 (hashData p1) = Sum256 (hashData p2) → hashData p1 = hashData p2) →
      generateJobHash Sum256 p1 ≠ generateJobHash Sum256 p2 := by
  have hne : hashData p1 ≠ hashData p2 := by
    intro heq
    have hd := congrArg String.data heq
    rw [hashData_data, hashData_data] at hd
    rcases h with ⟨hT, hC, hL⟩ | ⟨hT, hC, hL⟩ | ⟨hT, hC, hL⟩
    · rw [hC, hL] at hd
      exact hT (String.ext (List.append_cancel_right hd))
    · rw [hT, hL] at hd
      have h1 := List.append_cancel_left hd
      simp only [List.cons.injEq, true_and] at h1
      exact hC (String.ext (List.append_cancel_right h1))
    · rw [hT, hC] at hd
      have h1 := List.append_cancel_left hd
      simp only [List.cons.injEq, true_and] at h1
      have h2 := List.append_cancel_left h1
      simp only [List.cons.injEq, true_and] at h2
      exact hL (String.ext h2)
  refine ⟨hne, ?_⟩
  intro Sum256 hfree heq
  exact hne (hfree (hexEncode_injective _ _ heq))

theorem generateJobHash_ne_of_one_field_ne_witness :
    hashData goDeveloper ≠ hashData pythonDeveloper ∧
    generateJobHash codePointDigest goDeveloper ≠
      generateJobHash codePointDigest pythonDeveloper :=
  have h := generateJobHash_ne_of_one_field_ne goDeveloper pythonDeveloper
    (Or.inl ⟨by decide, rfl, rfl⟩)
  ⟨h.1, h.2 codePointDigest (fun hc => absurd hc (by decide))⟩

/-- C3, at the failing input. The postings `pipeInTitle` and `pipeInCompany`
have different (Title, Company, Location) triples, yet `generateJobHash` feeds
the same string to SHA-256 for both, so their fingerprints are equal for every
digest function. -/
theorem generateJobHash_collides_on_separator :
    (pipeInTitle.Title, pipeInTitle.Company, pipeInTitle.Location) ≠
      (pipeInCompany.Title, pipeInCompany.Company, pipeInCompany.Location) ∧
    hashData pipeInTitle = "Engineer|Backend|Acme|Remote" ∧
    hashData pipeInCompany = "Engineer|Backend|Acme|Remote" ∧
    ∀ Sum256 : Digest,
      generateJobHash Sum256 pipeInTitle = generateJobHash Sum256 pipeInCompany := by
  refine ⟨by decide, by decide, by decide, ?_⟩
  intro Sum256
  have h : hashData pipeInTitle = hashData pipeInCompany := by decide
  simp only [generateJobHash, h]

theorem append_separator_cancel (x : Char) :
    ∀ a a' b b' : List Char, x ∉ a → x ∉ a' → a ++ x :: b = a' ++ x :: b' →
      a = a' ∧ b = b' := by
  intro a
  induction a with
  | nil =>
    intro a' b b' _ ha' h
    cases a' with
    | nil => simpa using h
    | cons c cs =>
      simp only [List.nil_append, List.cons_append, List.cons.injEq] at h
      exact absurd (by simp [h.1]) ha'
  | cons c cs ih =>
    intro a' b b' ha ha' h
    cases a' with
    | nil =>
      simp only [List.nil_append, List.cons_append, List.cons.injEq] at h
      exact absurd (by simp [h.1]) ha
    | cons d ds =>
      simp only [List.cons_append, List.cons.injEq] at h
      have hcs : x ∉ cs := fun hm => ha (List.mem_cons_of_mem _ hm)
      have hds : x ∉ ds := fun hm => ha' (List.mem_cons_of_mem _ hm)
      obtain ⟨h1, h2⟩ := ih ds b b' hcs hds h.2
      exact ⟨by rw [h.1, h1], h2⟩

/-- Between postings whose Title and Company hold no separator character, the
string `generateJobHash` feeds to SHA-256 determines the (Title, Company,
Location) triple. -/
theorem hashData_injective_of_no_separator (p1 p2 : Job)
    (hT1 : '|' ∉ p1.Title.data) (hC1 : '|' ∉ p1.Company.data)
    (hT2 : '|' ∉ p2.Title.data) (hC2 : '|' ∉ p2.Company.data)
    (h : hashData p1 = hashData p2) :
    p1.Title = p2.Title ∧ p1.Company = p2.Company ∧ p1.Location = p2.Location := by
  have hd := congrArg String.data h
  rw [hashData_data, hashData_data] at hd
  obtain ⟨h1, h2⟩ := append_separator_cancel '|' _ _ _ _ hT1 hT2 hd
  obtain ⟨h3, h4⟩ := append_separator_cancel '|' _ _ _ _ hC1 hC2 h2
  exact ⟨String.ext h1, String.ext h3, String.ext h4⟩

end scraper

/-! ## The token bucket -/

namespace ratelimit

theorem tryAcquire_of_pos (rl : RateLimiter) (h : 0 < rl.tokens) :
    tryAcquire rl = (true, { rl with tokens := rl.tokens - 1 }) := by
  simp [tryAcquire, h]

theorem tryAcquire_of_nonpos (rl : RateLimiter) (h : rl.tokens ≤ 0) :
    tryAcquire rl = (false, rl) := by
  simp [tryAcquire, not_lt.mpr h]

/-- A call of `tryAcquire` takes one token when it returns true and none when
it returns false; it touches no other field. -/
theorem tryAcquire_tokens (rl : RateLimiter) :
    (tryAcquire rl).2 =
      { rl with tokens := rl.tokens - (if (tryAcquire rl).1 then 1 else 0) } := by
  by_cases h : 0 < rl.tokens
  · simp [tryAcquire, h]
  · simp [tryAcquire, h]

theorem acquireTimes_of_le :
    ∀ (n : Nat) (rl : RateLimiter), (n : Int) ≤ rl.tokens →
      acquireTimes n rl = (List.replicate n true, { rl with tokens := rl.tokens - n }) := by
  intro n
  induction n with
  | zero => intro rl _; simp [acquireTimes]
  | succ n ih =>
    intro rl h
    have hpos : 0 < rl.tokens := by push_cast at h; omega
    have hn : (n : Int) ≤ ({ rl with tokens := rl.tokens - 1 } : RateLimiter).tokens := by
      push_cast at h; simp only; omega
    simp only [acquireTimes, tryAcquire_of_pos rl hpos, ih _ hn, List.replicate_succ]
    congr 2
    push_cast
    omega

theorem acquireTimes_of_nonpos :
    ∀ (n : Nat) (rl : RateLimiter), rl.tokens ≤ 0 →
      acquireTimes n rl = (List.replicate n false, rl) := by
  intro n
  induction n with
  | zero => intro rl _; simp [acquireTimes]
  | succ n ih =>
    intro rl h
    simp only [acquireTimes, tryAcquire_of_nonpos rl h, ih rl h, List.replicate_succ]

theorem acquireTimes_append (m n : Nat) (rl : RateLimiter) :
    acquireTimes (m + n) rl =
      ((acquireTimes m rl).1 ++ (acquireTimes n (acquireTimes m rl).2).1,
        (acquireTimes n (acquireTimes m rl).2).2) := by
  induction m generalizing rl with
  | zero => simp [acquireTimes]
  | succ m ih =>
    have h : m + 1 + n = (m + n) + 1 := by omega
    rw [h]
    simp only [acquireTimes, ih, List.cons_append]

theorem Wait_of_pos (rest : List (List EnvEvent)) (rl : RateLimiter) (h : 0 < rl.tokens) :
    Wait ([] :: rest) Background rl =
      some { err := none, rl := { rl with tokens := rl.tokens - 1 }, ctx := Background,
             calls := [true] } := by
  simp [Wait, applyEnv, Background, tryAcquire, h]

theorem Wait_blocked :
    ∀ (n : Nat) (rl : RateLimiter), rl.tokens ≤ 0 →
      Wait (List.replicate n []) Background rl = none := by
  intro n
  induction n with
  | zero => intro rl _; simp [Wait]
  | succ n ih =>
    intro rl h
    simp [List.replicate_succ, Wait, applyEnv, Background, tryAcquire, not_lt.mpr h]
    exact ih rl h

/-- C4. On a limiter freshly built by `NewRateLimiter C`, for every `N ≤ C`
(so `C ≥ 0`) the first `N` calls of `tryAcquire` all return true and leave
exactly `C - N` tokens; and each of the first `N` calls of `Wait` with a live
context returns nil at its first attempt, with no refill tick before it,
whatever the rest of its schedule is. -/
theorem first_acquisitions_succeed (C : Int) (N : Nat) (hN : (N : Int) ≤ C) :
    acquireTimes N (NewRateLimiter C) =
      (List.replicate N true, { NewRateLimiter C with tokens := C - N }) ∧
    ∀ k : Nat, k < N → ∀ rest : List (List EnvEvent),
      Wait ([] :: rest) Background (acquireTimes k (NewRateLimiter C)).2 =
        some { err := none, rl := (acquireTimes (k + 1) (NewRateLimiter C)).2,
               ctx := Background, calls := [true] } := by
  refine ⟨acquireTimes_of_le N (NewRateLimiter C) hN, ?_⟩
  intro k hk rest
  have hk0 : (k : Int) ≤ (NewRateLimiter C).tokens := by
    simp only [NewRateLimiter]; omega
  have hk1 : ((k + 1 : Nat) : Int) ≤ (NewRateLimiter C).tokens := by
    simp only [NewRateLimiter]; push_cast; omega
  rw [acquireTimes_of_le k _ hk0, acquireTimes_of_le (k + 1) _ hk1]
  have hpos : 0 < ({ NewRateLimiter C with tokens := (NewRateLimiter C).tokens - k } :
      RateLimiter).tokens := by
    simp only [NewRateLimiter]; omega
  rw [Wait_of_pos rest _ hpos]
  simp only [Option.some.injEq, WaitResult.mk.injEq, RateLimiter.mk.injEq, and_true, true_and]
  push_cast
  omega

theorem first_acquisitions_succeed_witness :
    ((3 : Nat) : Int) ≤ 5 ∧
    acquireTimes 3 (NewRateLimiter 5) =
      ([true, true, true], { NewRateLimiter 5 with tokens := 2 }) :=
  ⟨by decide, (first_acquisitions_succeed 5 3 (by decide)).1⟩

/-- C5. After `C` successful acquisitions on a fresh limiter of capacity
`C ≥ 0`, with no refill tick in between, the token count is 0, every further
call of `tryAcquire` returns false and leaves the limiter as it is, and `Wait`
with a live context has not returned after any number of iterations in which no
refill tick occurs. -/
theorem exhausted_limiter_blocks (C : Int) (hC : 0 ≤ C) :
    (acquireTimes C.toNat (NewRateLimiter C)).1 = List.replicate C.toNat true ∧
    (acquireTimes C.toNat (NewRateLimiter C)).2.tokens = 0 ∧
    (∀ k : Nat, acquireTimes k (acquireTimes C.toNat (NewRateLimiter C)).2 =
      (List.replicate k false, (acquireTimes C.toNat (NewRateLimiter C)).2)) ∧
    ∀ n : Nat,
      Wait (List.replicate n []) Background (acquireTimes C.toNat (NewRateLimiter C)).2 =
        none := by
  have hle : (C.toNat : Int) ≤ (NewRateLimiter C).tokens := by
    simp only [NewRateLimiter]; omega
  have hz : (acquireTimes C.toNat (NewRateLimiter C)).2.tokens = 0 := by
    rw [acquireTimes_of_le _ _ hle]
    simp only [NewRateLimiter]; omega
  refine ⟨by rw [acquireTimes_of_le _ _ hle], hz, ?_, ?_⟩
  · intro k
    exact acquireTimes_of_nonpos k _ (le_of_eq hz)
  · intro n
    exact Wait_blocked n _ (le_of_eq hz)

theorem exhausted_limiter_blocks_witness :
    (0 : Int) ≤ 2 ∧
    (acquireTimes 2 (NewRateLimiter 2)).1 = [true, true] ∧
    (acquireTimes 4 (NewRateLimiter 2)).1 = [true, true, false, false] ∧
    Wait [[], [], []] Background (acquireTimes 2 (NewRateLimiter 2)).2 = none :=
  ⟨by decide, (exhausted_limiter_blocks 2 (by decide)).1, by decide,
    (exhausted_limiter_blocks 2 (by decide)).2.2.2 3⟩

end ratelimit

namespace ratelimit

theorem withinCapacity_new (C : Int) (hC : 0 ≤ C) : WithinCapacity C (NewRateLimiter C) := by
  simp [WithinCapacity, NewRateLimiter, hC]

theorem withinCapacity_step (C : Int) (hC : 0 ≤ C) (op : Op) (rl : RateLimiter)
    (h : WithinCapacity C rl) : WithinCapacity C (op.step rl).2 := by
  obtain ⟨h0, h1, h2⟩ := h
  cases op with
  | acquire =>
    by_cases hp : 0 < rl.tokens
    · simp only [Op.step, tryAcquire_of_pos rl hp, WithinCapacity]
      omega
    · simp only [Op.step, tryAcquire_of_nonpos rl (not_lt.mp hp), WithinCapacity]
      omega
  | tick =>
    by_cases hr : rl.refilling = true
    · simp only [Op.step, refillTokens, hr, if_true, WithinCapacity]
      omega
    · simp only [Op.step, refillTokens, hr, WithinCapacity]
      simp only [Bool.false_eq_true, if_false]
      omega

theorem withinCapacity_runOps (C : Int) (hC : 0 ≤ C) (ops : List Op) :
    ∀ rl : RateLimiter, WithinCapacity C rl → WithinCapacity C (runOps ops rl) := by
  induction ops with
  | nil => intro rl h; exact h
  | cons op ops ih =>
    intro rl h
    simp only [runOps, List.foldl_cons]
    exact ih _ (withinCapacity_step C hC op rl h)

theorem successes_le_tokens (seg : List Op) :
    ∀ rl : RateLimiter, Op.tick ∉ seg → 0 ≤ rl.tokens →
      (successes seg rl : Int) ≤ rl.tokens := by
  induction seg with
  | nil => intro rl _ h; simpa [successes] using h
  | cons op ops ih =>
    intro rl hseg h0
    have hop : op ≠ Op.tick := fun he => hseg (by simp [he])
    have hops : Op.tick ∉ ops := fun hm => hseg (List.mem_cons_of_mem _ hm)
    cases op with
    | tick => exact absurd rfl hop
    | acquire =>
      by_cases hp : 0 < rl.tokens
      · have hrec := ih { rl with tokens := rl.tokens - 1 } hops (by simp only; omega)
        simp only [successes, Op.step, tryAcquire_of_pos rl hp, if_true]
        simp only at hrec
        push_cast
        omega
      · have hrec := ih rl hops h0
        simp only [successes, Op.step, tryAcquire_of_nonpos rl (not_lt.mp hp)]
        simp only [Bool.false_eq_true, if_false, zero_add]
        exact hrec

/-- C6. On a limiter built with capacity `C ≥ 0`, after every finite sequence
`pre` of `tryAcquire` calls and refill ticks the token count lies in `0..C`,
and every run `seg` of operations that follows and holds no refill tick (the
operations between two consecutive ticks, or before the first one) has at most
`C` successful acquisitions. -/
theorem acquisitions_between_ticks_bounded (C : Int) (hC : 0 ≤ C) (pre seg : List Op)
    (hseg : Op.tick ∉ seg) :
    (successes seg (runOps pre (NewRateLimiter C)) : Int) ≤ C ∧
    0 ≤ (runOps pre (NewRateLimiter C)).tokens ∧
    (runOps pre (NewRateLimiter C)).tokens ≤ C := by
  have hinv := withinCapacity_runOps C hC pre _ (withinCapacity_new C hC)
  obtain ⟨h0, h1, _⟩ := hinv
  exact ⟨le_trans (successes_le_tokens seg _ hseg h0) h1, h0, h1⟩

theorem acquisitions_between_ticks_bounded_witness :
    (0 : Int) ≤ 2 ∧ Op.tick ∉ [Op.acquire, Op.acquire, Op.acquire] ∧
    successes [Op.acquire, Op.acquire, Op.acquire]
      (runOps [Op.acquire, Op.tick] (NewRateLimiter 2)) = 2 ∧
    (successes [Op.acquire, Op.acquire, Op.acquire]
      (runOps [Op.acquire, Op.tick] (NewRateLimiter 2)) : Int) ≤ 2 :=
  ⟨by decide, by decide, by decide,
    (acquisitions_between_ticks_bounded 2 (by decide) [Op.acquire, Op.tick]
      [Op.acquire, Op.acquire, Op.acquire] (by decide)).1⟩

/-- C7. A refill tick is a full reset: on a limiter of capacity `C ≥ 0` whose
refill goroutine is running, whatever the token count before the tick, after
the tick the token count is `C`, the next `C` calls of `tryAcquire` return true
and the one after them returns false; the tick leaves the rate and the capacity
as they were. -/
theorem refill_is_full_reset (C : Int) (hC : 0 ≤ C) (rl : RateLimiter)
    (hcap : rl.maxTokens = C) (hrun : rl.refilling = true) :
    (refillTokens RefillEvent.tick rl).tokens = C ∧
    (acquireTimes (C.toNat + 1) (refillTokens RefillEvent.tick rl)).1 =
      List.replicate C.toNat true ++ [false] ∧
    (refillTokens RefillEvent.tick rl).rate = rl.rate ∧
    (refillTokens RefillEvent.tick rl).maxTokens = rl.maxTokens := by
  have ht : refillTokens RefillEvent.tick rl = { rl with tokens := rl.maxTokens } := by
    simp [refillTokens, hrun]
  rw [ht]
  refine ⟨hcap, ?_, rfl, rfl⟩
  have hle : (C.toNat : Int) ≤ ({ rl with tokens := rl.maxTokens } : RateLimiter).tokens := by
    simp only; omega
  rw [acquireTimes_append, acquireTimes_of_le _ _ hle]
  have hz : ({ rl with tokens := rl.maxTokens - C.toNat } : RateLimiter).tokens ≤ 0 := by
    simp only; omega
  simp only
  rw [acquireTimes_of_nonpos 1 _ hz]
  rfl

theorem refill_is_full_reset_witness :
    (0 : Int) ≤ 3 ∧
    ({ NewRateLimiter 3 with tokens := 1 } : RateLimiter).maxTokens = 3 ∧
    ({ NewRateLimiter 3 with tokens := 1 } : RateLimiter).refilling = true ∧
    (refillTokens RefillEvent.tick { NewRateLimiter 3 with tokens := 1 }).tokens = 3 ∧
    (acquireTimes 4 (refillTokens RefillEvent.tick
      { NewRateLimiter 3 with tokens := 1 })).1 = [true, true, true, false] :=
  ⟨by decide, rfl, rfl,
    (refill_is_full_reset 3 (by decide) { NewRateLimiter 3 with tokens := 1 } rfl rfl).1,
    (refill_is_full_reset 3 (by decide) { NewRateLimiter 3 with tokens := 1 } rfl rfl).2.1⟩

/-- C8. Called with a context that is already cancelled, `Wait` returns that
context's error, which is not nil, at its first iteration, makes no call of
`tryAcquire` and leaves the limiter as it found it, tokens included, whatever
the limiter state and whatever would have come later in the schedule. -/
theorem Wait_cancelled_context (rl : RateLimiter) (cause : CtxErr)
    (rest : List (List EnvEvent)) :
    Wait ([] :: rest) { err := some cause } rl =
      some { err := some cause, rl := rl, ctx := { err := some cause }, calls := [] } := by
  simp [Wait, applyEnv]

theorem Wait_cons (evs : List EnvEvent) (rest : List (List EnvEvent)) (ctx : Context)
    (rl : RateLimiter) :
    Wait (evs :: rest) ctx rl =
      match (applyEnv evs (ctx, rl)).1.err with
      | some e =>
        some { err := some e, rl := (applyEnv evs (ctx, rl)).2,
               ctx := (applyEnv evs (ctx, rl)).1, calls := [] }
      | none =>
        match tryAcquire (applyEnv evs (ctx, rl)).2 with
        | (true, rl') =>
          some { err := none, rl := rl', ctx := (applyEnv evs (ctx, rl)).1, calls := [true] }
        | (false, rl') =>
          (Wait rest (applyEnv evs (ctx, rl)).1 rl').map
            (fun r => { r with calls := false :: r.calls }) := by
  rw [Wait]

theorem applyEnv_append (a b : List EnvEvent) (x : Context × RateLimiter) :
    applyEnv (a ++ b) x = applyEnv b (applyEnv a x) := by
  simp only [applyEnv, List.foldl_append]

theorem applyEnv_of_no_tick (evs : List EnvEvent) :
    ∀ x : Context × RateLimiter, EnvEvent.tick ∉ evs → (applyEnv evs x).2 = x.2 := by
  induction evs with
  | nil => intro x _; rfl
  | cons ev evs ih =>
    intro x h
    have hev : ev ≠ EnvEvent.tick := fun he => h (by simp [he])
    have hrest : EnvEvent.tick ∉ evs := fun hm => h (List.mem_cons_of_mem _ hm)
    have hstep : applyEnv (ev :: evs) x = applyEnv evs (ev.apply x) := rfl
    rw [hstep, ih _ hrest]
    cases ev with
    | tick => exact absurd rfl hev
    | cancel cause => rfl

theorem take_succ_cons_flatten (evs : List EnvEvent) (rest : List (List EnvEvent)) (k : Nat)
    (x : Context × RateLimiter) :
    applyEnv ((evs :: rest).take (k + 1)).flatten x =
      applyEnv (rest.take k).flatten (applyEnv evs x) := by
  rw [List.take_succ_cons, List.flatten_cons, applyEnv_append]

/-- A returning call of `Wait` returns in some iteration `k` of its loop, after
`k` failed calls of `tryAcquire`: the context and the limiter it then sees are
those the environment has made by then, and it either takes one token from that
limiter and returns nil, or finds the context done and leaves the limiter as it
is. -/
theorem Wait_trace :
    ∀ (schedule : List (List EnvEvent)) (ctx : Context) (rl : RateLimiter) (res : WaitResult),
      Wait schedule ctx rl = some res →
      ∃ k : Nat, k < schedule.length ∧
        res.ctx = (applyEnv (schedule.take (k + 1)).flatten (ctx, rl)).1 ∧
        ((res.err = none ∧ res.ctx.err = none ∧
            res.calls = List.replicate k false ++ [true] ∧ res.calls.count true = 1 ∧
            0 < (applyEnv (schedule.take (k + 1)).flatten (ctx, rl)).2.tokens ∧
            res.rl =
              { (applyEnv (schedule.take (k + 1)).flatten (ctx, rl)).2 with
                tokens := (applyEnv (schedule.take (k + 1)).flatten (ctx, rl)).2.tokens - 1 }) ∨
          (∃ cause : CtxErr, res.err = some cause ∧ res.ctx.err = some cause ∧
            res.calls = List.replicate k false ∧ res.calls.count true = 0 ∧
            res.rl = (applyEnv (schedule.take (k + 1)).flatten (ctx, rl)).2)) := by
  intro schedule
  induction schedule with
  | nil => intro ctx rl res h; simp [Wait] at h
  | cons evs rest ih =>
    intro ctx rl res h
    rw [Wait_cons] at h
    have h0 : applyEnv ((evs :: rest).take (0 + 1)).flatten (ctx, rl) = applyEnv evs (ctx, rl) := by
      rw [take_succ_cons_flatten]; rfl
    cases hctx : (applyEnv evs (ctx, rl)).1.err with
    | some e =>
      simp only [hctx, Option.some.injEq] at h
      subst h
      refine ⟨0, by simp, ?_, Or.inr ⟨e, rfl, hctx, by simp, by simp, ?_⟩⟩
      · rw [h0]
      · rw [h0]
    | none =>
      simp only [hctx] at h
      by_cases hp : 0 < (applyEnv evs (ctx, rl)).2.tokens
      · rw [tryAcquire_of_pos _ hp] at h
        simp only [Option.some.injEq] at h
        subst h
        refine ⟨0, by simp, ?_, Or.inl ⟨rfl, hctx, by simp, by simp, ?_, ?_⟩⟩
        · rw [h0]
        · rw [h0]; exact hp
        · rw [h0]
      · rw [tryAcquire_of_nonpos _ (not_lt.mp hp)] at h
        simp only [Option.map_eq_some'] at h
        obtain ⟨r, hr, hres⟩ := h
        subst hres
        obtain ⟨k, hk, hc, hcase⟩ := ih _ _ r hr
        have hk1 : applyEnv ((evs :: rest).take (k + 1 + 1)).flatten (ctx, rl) =
            applyEnv (rest.take (k + 1)).flatten
              ((applyEnv evs (ctx, rl)).1, (applyEnv evs (ctx, rl)).2) := by
          rw [take_succ_cons_flatten]
        refine ⟨k + 1, by simpa using hk, ?_, ?_⟩
        · rw [hk1]; exact hc
        · rw [hk1]
          rcases hcase with ⟨h1, h2, h3, h4, h5, h6⟩ | ⟨c, h1, h2, h3, h4, h5⟩
          · refine Or.inl ⟨h1, h2, ?_, ?_, h5, h6⟩
            · simp [h3, List.replicate_succ]
            · simpa [List.count_cons] using h4
          · refine Or.inr ⟨c, h1, h2, ?_, ?_, h5⟩
            · simp [h3, List.replicate_succ]
            · simpa [List.count_cons] using h4

theorem applyEnv_flatten_of_no_tick (schedule : List (List EnvEvent))
    (h : ∀ evs ∈ schedule, EnvEvent.tick ∉ evs) (n : Nat) (x : Context × RateLimiter) :
    (applyEnv (schedule.take n).flatten x).2 = x.2 := by
  apply applyEnv_of_no_tick
  intro hm
  obtain ⟨evs, hevs, ht⟩ := List.mem_flatten.mp hm
  exact h evs (List.mem_of_mem_take hevs) ht

/-- C9. Whenever `Wait` returns, under every schedule of refill ticks and
cancellations and from every limiter state, it returns in some iteration `k` of
its loop, after `k` failed calls of `tryAcquire`, and either it returns nil: the
context is not done, the call of `tryAcquire` of that iteration is the only one
that succeeded, and the limiter it leaves is the limiter the environment had
made by then with exactly one token less; or it returns the error `ctx.Err()`
of its context, which is done: no call of `tryAcquire` succeeded and the limiter
it leaves is the one the environment had made by then, no token taken. In a
schedule without a refill tick the limiter at a nil return is therefore the
limiter of the call with one token less, and at an error return the limiter of
the call unchanged. -/
theorem Wait_returns_nil_or_ctx_err :
    ∀ (schedule : List (List EnvEvent)) (ctx : Context) (rl : RateLimiter) (res : WaitResult),
      Wait schedule ctx rl = some res →
      (∃ k : Nat, k < schedule.length ∧
        res.ctx = (applyEnv (schedule.take (k + 1)).flatten (ctx, rl)).1 ∧
        ((res.err = none ∧ res.ctx.err = none ∧
            res.calls = List.replicate k false ++ [true] ∧ res.calls.count true = 1 ∧
            0 < (applyEnv (schedule.take (k + 1)).flatten (ctx, rl)).2.tokens ∧
            res.rl =
              { (applyEnv (schedule.take (k + 1)).flatten (ctx, rl)).2 with
                tokens := (applyEnv (schedule.take (k + 1)).flatten (ctx, rl)).2.tokens - 1 }) ∨
          (∃ cause : CtxErr, res.err = some cause ∧ res.ctx.err = some cause ∧
            res.calls = List.replicate k false ∧ res.calls.count true = 0 ∧
            res.rl = (applyEnv (schedule.take (k + 1)).flatten (ctx, rl)).2))) ∧
      ((∀ evs ∈ schedule, EnvEvent.tick ∉ evs) →
        (res.err = none → res.rl = { rl with tokens := rl.tokens - 1 }) ∧
        (res.err ≠ none → res.rl = rl)) := by
  intro schedule ctx rl res h
  have ht := Wait_trace schedule ctx rl res h
  refine ⟨ht, ?_⟩
  intro hno
  obtain ⟨k, _, _, hcase⟩ := ht
  have hrl := applyEnv_flatten_of_no_tick schedule hno (k + 1) (ctx, rl)
  rw [hrl] at hcase
  rcases hcase with ⟨h1, _, _, _, _, h6⟩ | ⟨c, h1, _, _, _, h5⟩
  · exact ⟨fun _ => h6, fun hn => absurd h1 hn⟩
  · refine ⟨fun hn => ?_, fun _ => h5⟩
    rw [h1] at hn
    exact absurd hn (by simp)

theorem Wait_returns_nil_or_ctx_err_witness :
    Wait [[]] Background (NewRateLimiter 2) = some firstToken ∧
    (∀ evs ∈ [([] : List EnvEvent)], EnvEvent.tick ∉ evs) ∧
    firstToken.rl = { NewRateLimiter 2 with tokens := (NewRateLimiter 2).tokens - 1 } ∧
    Wait tickDuringSleep Background usedUp = some afterRefill ∧
    afterRefill.calls = [false, true] ∧ afterRefill.rl.tokens = 1 ∧
    ∃ k : Nat, k < tickDuringSleep.length ∧
      afterRefill.ctx = (applyEnv (tickDuringSleep.take (k + 1)).flatten (Background, usedUp)).1 ∧
      ((afterRefill.err = none ∧ afterRefill.ctx.err = none ∧
          afterRefill.calls = List.replicate k false ++ [true] ∧
          afterRefill.calls.count true = 1 ∧
          0 < (applyEnv (tickDuringSleep.take (k + 1)).flatten (Background, usedUp)).2.tokens ∧
          afterRefill.rl =
            { (applyEnv (tickDuringSleep.take (k + 1)).flatten (Background, usedUp)).2 with
              tokens :=
                (applyEnv (tickDuringSleep.take (k + 1)).flatten
                  (Background, usedUp)).2.tokens - 1 }) ∨
        (∃ cause : CtxErr, afterRefill.err = some cause ∧ afterRefill.ctx.err = some cause ∧
          afterRefill.calls = List.replicate k false ∧ afterRefill.calls.count true = 0 ∧
          afterRefill.rl =
            (applyEnv (tickDuringSleep.take (k + 1)).flatten (Background, usedUp)).2)) :=
  ⟨by decide, by decide,
    ((Wait_returns_nil_or_ctx_err [[]] Background (NewRateLimiter 2) firstToken
      (by decide)).2 (by decide)).1 rfl,
    by decide, by decide, by decide,
    (Wait_returns_nil_or_ctx_err tickDuringSleep Background usedUp afterRefill (by decide)).1⟩

end ratelimit

/-! ## Stopping the limiter -/

namespace scraper

open ratelimit

/-- C10, as stated, fails. On a fresh limiter the first `Stop` closes the stop
channel and the second one panics with "close of closed channel"; so does the
second `Engine.Shutdown` on a fresh engine. -/
theorem Stop_twice_panics :
    (Stop (NewRateLimiter 5)).bind Stop = Except.error closeOfClosedChannel ∧
    (Stop (NewRateLimiter 5)).isOk = true ∧
    ((NewEngine 3 5).Shutdown.bind Engine.Shutdown).isOk = false := by
  refine ⟨rfl, rfl, rfl⟩

/-- C10, amended. `Stop` is neither idempotent nor guarded. On an engine whose
limiter has its stop channel open and its refill goroutine running (every
engine on which `Shutdown` was not called yet), the first `Shutdown`, like the
first `Stop`, completes without failure and closes the stop channel; the refill
goroutine then stops the ticker and returns at its stop case, after which it
takes no further step, so it is terminated exactly once; a second `Stop`, before
or after the goroutine has returned, panics, and so does a second
`Shutdown`. -/
theorem Stop_once_then_panics (e : Engine) (hopen : e.rateLimiter.stopChClosed = false)
    (hrun : e.rateLimiter.refilling = true) :
    Stop e.rateLimiter = Except.ok { e.rateLimiter with stopChClosed := true } ∧
    e.Shutdown =
      Except.ok { e with rateLimiter := { e.rateLimiter with stopChClosed := true } } ∧
    refillTokens RefillEvent.stop { e.rateLimiter with stopChClosed := true } =
      { e.rateLimiter with stopChClosed := true, tickerStopped := true, refilling := false } ∧
    (∀ ev : RefillEvent,
      refillTokens ev
          { e.rateLimiter with stopChClosed := true, tickerStopped := true,
                               refilling := false } =
        { e.rateLimiter with stopChClosed := true, tickerStopped := true,
                             refilling := false }) ∧
    Stop { e.rateLimiter with stopChClosed := true } = Except.error closeOfClosedChannel ∧
    Stop { e.rateLimiter with stopChClosed := true, tickerStopped := true,
                              refilling := false } =
      Except.error closeOfClosedChannel ∧
    e.Shutdown.bind Engine.Shutdown = Except.error closeOfClosedChannel := by
  have hs : Stop e.rateLimiter = Except.ok { e.rateLimiter with stopChClosed := true } := by
    simp [Stop, hopen]
  refine ⟨hs, ?_, ?_, ?_, ?_, ?_, ?_⟩
  · simp [Engine.Shutdown, hs]
  · simp [refillTokens, hrun]
  · intro ev
    simp [refillTokens]
  · simp [Stop]
  · simp [Stop]
  · simp [Engine.Shutdown, Except.bind, Stop, hopen]

theorem Stop_once_then_panics_witness :
    (NewEngine 3 5).rateLimiter.stopChClosed = false ∧
    (NewEngine 3 5).rateLimiter.refilling = true ∧
    Stop (NewEngine 3 5).rateLimiter =
      Except.ok { (NewEngine 3 5).rateLimiter with stopChClosed := true } ∧
    (NewEngine 3 5).Shutdown.bind Engine.Shutdown = Except.error closeOfClosedChannel :=
  ⟨rfl, rfl, (Stop_once_then_panics (NewEngine 3 5) rfl rfl).1,
    (Stop_once_then_panics (NewEngine 3 5) rfl rfl).2.2.2.2.2.2⟩

end scraper

/-! ## Runs of the engine -/

set_option linter.unusedTactic false
set_option linter.unreachableTactic false
set_option linter.unnecessarySeqFocus false

namespace scraper

open models ratelimit

theorem Run.stepWorker_transition (Sum256 : Digest) (id : Nat) (now : Int) (s s' : Run)
    (hp : s.panicked = none) (h : s.stepWorker Sum256 id now = some s') :
    Transition Sum256 (Action.worker id now) s s' := by
  unfold Run.stepWorker at h
  split at h
  · exact absurd h (by simp)
  · exact absurd h (by simp)
  · next hw =>
    split at h
    · next hq =>
      cases h
      exact Transition.workerExit s id now hp hw hq
    · next source rest hq =>
      split at h
      · next cause hc =>
        cases h
        exact Transition.workerQuit s id now source rest cause hp hw hq hc
      · next hc =>
        cases h
        exact Transition.workerTake s id now source rest hp hw hq hc
  · next source hw =>
    split at h
    · next cause hc =>
      cases h
      exact Transition.waitCancelled s id now source cause hp hw hc
    · next hc =>
      by_cases ht : 0 < s.e.rateLimiter.tokens
      · rw [tryAcquire_of_pos _ ht] at h
        simp only at h
        split at h
        · next sourceJobs err hs =>
          cases h
          exact Transition.scrapeFailed s id now source sourceJobs err hp hw hc ht hs
        · next sourceJobs hs =>
          cases h
          exact Transition.scrapeOk s id now source sourceJobs hp hw hc ht hs
      · rw [tryAcquire_of_nonpos _ (not_lt.mp ht)] at h
        exact absurd h (by simp)
  · next msg hw =>
    split at h
    · next hx =>
      cases h
      exact Transition.errPanic s id now msg hp hw hx
    · next hx =>
      split at h
      · next hl =>
        cases h
        exact Transition.errPush s id now msg hp hw (by simpa using hx) hl
      · exact absurd h (by simp)
  · next source job rest hw =>
    split at h
    · next hx =>
      cases h
      exact Transition.jobPanic s id now source job rest hp hw hx
    · next hx =>
      split at h
      · next hl =>
        cases h
        exact Transition.jobPush s id now source job rest hp hw (by simpa using hx) hl
      · exact absurd h (by simp)

theorem Run.step_transition (Sum256 : Digest) (a : Action) (s s' : Run)
    (h : s.step Sum256 a = some s') : Transition Sum256 a s s' := by
  unfold Run.step at h
  split at h
  · exact absurd h (by simp)
  · next hp =>
    cases a with
    | worker id now => exact Run.stepWorker_transition Sum256 id now s s' hp h
    | workerDone id =>
      simp only at h
      split at h
      · next source job rest cause hw hc =>
        cases h
        exact Transition.workerDone s id source job rest cause hp hw hc
      · exact absurd h (by simp)
    | collect =>
      simp only at h
      split at h
      · exact absurd h (by simp)
      · next hd =>
        split at h
        · next job rest hq =>
          cases h
          exact Transition.collectJob s job rest hp (by simpa using hd) hq
        · next hq =>
          split at h
          · next hx =>
            cases h
            exact Transition.collectEnd s hp (by simpa using hd) hq hx
          · exact absurd h (by simp)
    | collectErr =>
      simp only at h
      split at h
      · exact absurd h (by simp)
      · next hd =>
        split at h
        · next err rest hq =>
          cases h
          exact Transition.collectErrItem s err rest hp (by simpa using hd) hq
        · next hq =>
          split at h
          · next hx =>
            cases h
            exact Transition.collectErrEnd s hp (by simpa using hd) hq hx
          · exact absurd h (by simp)
    | close =>
      simp only at h
      split at h
      · exact absurd h (by simp)
      · next hd =>
        split at h
        · next hw =>
          split at h
          · next hx =>
            cases h
            exact Transition.closePanic s hp (by simpa using hd) hw hx
          · next hx =>
            cases h
            exact Transition.closeAll s hp (by simpa using hd) hw (by simpa using hx)
        · exact absurd h (by simp)
    | selectDone =>
      simp only at h
      split at h
      · next hm =>
        split at h
        · next hd =>
          cases h
          exact Transition.selectDone s hp hm hd
        · exact absurd h (by simp)
      · exact absurd h (by simp)
    | selectCtx =>
      simp only at h
      split at h
      · next cause hm hc =>
        cases h
        exact Transition.selectCtx s cause hp hm hc
      · exact absurd h (by simp)
    | finish now =>
      simp only at h
      split at h
      · next hm =>
        split at h
        · next hd =>
          cases h
          exact Transition.finish s now hp hm hd
        · exact absurd h (by simp)
      · exact absurd h (by simp)
    | tick =>
      simp only at h
      split at h
      · next ht =>
        cases h
        have hr := ht.1
        have := @Transition.tick Sum256 s hp ht.1 ht.2
        simpa [refillTokens, hr] using this
      · exact absurd h (by simp)
    | cancel cause =>
      simp only at h
      split at h
      · next hc =>
        cases h
        have := @Transition.cancel Sum256 s cause hp hc
        simpa [Context.cancel, hc] using this
      · exact absurd h (by simp)

theorem Transition.step_eq (Sum256 : Digest) (a : Action) (s s' : Run)
    (h : Transition Sum256 a s s') : s.step Sum256 a = some s' := by
  cases h <;>
    simp_all [Run.step, Run.stepWorker, tryAcquire, refillTokens, Context.cancel]

theorem sum_map_set {α M : Type} [AddCommMonoid M] (f : α → M) :
    ∀ (l : List α) (i : Nat) (w x : α), l[i]? = some w →
      ((l.set i x).map f).sum + f w = (l.map f).sum + f x := by
  intro l
  induction l with
  | nil => intro i w x h; simp at h
  | cons a l ih =>
    intro i w x h
    cases i with
    | zero =>
      simp only [List.getElem?_cons_zero, Option.some.injEq] at h
      subst h
      simp only [List.set_cons_zero, List.map_cons, List.sum_cons]
      abel
    | succ i =>
      simp only [List.getElem?_cons_succ] at h
      simp only [List.set_cons_succ, List.map_cons, List.sum_cons]
      rw [add_assoc, ih i w x h, add_assoc]

theorem isExited_of_all (l : List Worker) (i : Nat) (w : Worker)
    (hall : l.all Worker.isExited = true) (h : l[i]? = some w) : w.isExited = true := by
  rw [List.all_eq_true] at hall
  exact hall w (List.getElem?_mem h)

theorem mem_set_cases (l : List Worker) (i : Nat) (x w : Worker) (h : w ∈ l.set i x) :
    w ∈ l ∨ w = x :=
  List.mem_or_eq_of_mem_set h

theorem Worker.cost_forward (Sum256 : Digest) (now : Int) (source : JobSource) (q : String)
    (js : List Job) : (Worker.forward Sum256 now source js).cost q ≤ 2 * js.length + 1 := by
  cases js with
  | nil => simp [Worker.forward, Worker.cost]
  | cons job rest => simp only [Worker.forward, Worker.cost, List.length_cons]; omega

theorem Transition.cost_lt (Sum256 : Digest) (a : Action) (s s' : Run)
    (h : Transition Sum256 a s s') : s'.cost < s.cost := by
  cases h with
  | workerExit _ id now hp hw hq =>
    have := sum_map_set (Worker.cost s.query) s.workers id Worker.ready Worker.exited hw
    simp only [Worker.cost] at this
    simp only [Run.cost]
    omega
  | workerQuit _ id now source rest cause hp hw hq hc =>
    have := sum_map_set (Worker.cost s.query) s.workers id Worker.ready Worker.exited hw
    simp only [Worker.cost] at this
    simp only [Run.cost, hq, List.map_cons, List.sum_cons]
    omega
  | workerTake _ id now source rest hp hw hq hc =>
    have := sum_map_set (Worker.cost s.query) s.workers id Worker.ready
      (Worker.waiting source) hw
    simp only [Worker.cost] at this
    simp only [Run.cost, hq, List.map_cons, List.sum_cons, sourceCost]
    omega
  | waitCancelled _ id now source cause hp hw hc =>
    have := sum_map_set (Worker.cost s.query) s.workers id (Worker.waiting source)
      (Worker.failing ("rate limiter error: " ++ cause.Error)) hw
    simp only [Worker.cost] at this
    simp only [Run.cost]
    omega
  | scrapeFailed _ id now source sourceJobs err hp hw hc ht hs =>
    have := sum_map_set (Worker.cost s.query) s.workers id (Worker.waiting source)
      (Worker.failing (source.Name ++ " scraper failed: " ++ err)) hw
    simp only [Worker.cost] at this
    simp only [Run.cost]
    split_ifs <;> omega
  | scrapeOk _ id now source sourceJobs hp hw hc ht hs =>
    have := sum_map_set (Worker.cost s.query) s.workers id (Worker.waiting source)
      (Worker.forward Sum256 now source sourceJobs) hw
    have hf := Worker.cost_forward Sum256 now source s.query sourceJobs
    rw [Worker.cost, hs] at this
    simp only at this
    simp only [Run.cost]
    split_ifs <;> omega
  | errPanic _ id now msg hp hw hx =>
    simp only [Run.cost, hp, Option.isSome_none, Option.isSome_some, Bool.false_eq_true,
      if_false, if_true]
    omega
  | errPush _ id now msg hp hw hx hl =>
    have := sum_map_set (Worker.cost s.query) s.workers id (Worker.failing msg)
      Worker.ready hw
    simp only [Worker.cost] at this
    simp only [Run.cost, List.length_append, List.length_singleton]
    omega
  | jobPanic _ id now source job rest hp hw hx =>
    simp only [Run.cost, hp, Option.isSome_none, Option.isSome_some, Bool.false_eq_true,
      if_false, if_true]
    omega
  | jobPush _ id now source job rest hp hw hx hl =>
    have := sum_map_set (Worker.cost s.query) s.workers id (Worker.sending source job rest)
      (Worker.forward Sum256 now source rest) hw
    have hf := Worker.cost_forward Sum256 now source s.query rest
    rw [Worker.cost] at this
    simp only [Run.cost, List.length_append, List.length_singleton]
    omega
  | workerDone _ id source job rest cause hp hw hc =>
    have := sum_map_set (Worker.cost s.query) s.workers id (Worker.sending source job rest)
      Worker.exited hw
    simp only [Worker.cost] at this
    simp only [Run.cost]
    omega
  | collectJob _ job rest hp hd hq =>
    simp only [Run.cost, hq, List.length_cons]
    omega
  | collectEnd _ hp hd hq hx =>
    simp only [Run.cost, hd, Bool.false_eq_true, if_false, if_true]
    omega
  | collectErrItem _ err rest hp hd hq =>
    simp only [Run.cost, hq, List.length_cons]
    omega
  | collectErrEnd _ hp hd hq hx =>
    simp only [Run.cost, hd, Bool.false_eq_true, if_false, if_true]
    omega
  | closePanic _ hp hd hw hx =>
    simp only [Run.cost, hp, Option.isSome_none, Option.isSome_some, Bool.false_eq_true,
      if_false, if_true]
    omega
  | closeAll _ hp hd hw hx =>
    simp only [Run.cost, hd, Bool.false_eq_true, if_false, if_true]
    omega
  | selectDone _ hp hm hd =>
    simp only [Run.cost, hm, MainState.cost]
    omega
  | selectCtx _ cause hp hm hc =>
    simp only [Run.cost, hm, MainState.cost]
    omega
  | finish _ now hp hm hd =>
    simp only [Run.cost, hm, MainState.cost]
    omega
  | tick _ hp hr ht =>
    simp only [Run.cost, ht, if_false, if_true]
    omega
  | cancel _ cause hp hc =>
    simp only [Run.cost, hc, Option.isSome_none, Option.isSome_some, Bool.false_eq_true,
      if_false, if_true]
    omega

theorem Run.exec_cost (Sum256 : Digest) :
    ∀ (schedule : List Action) (s s' : Run), Run.exec Sum256 schedule s = some s' →
      schedule.length + s'.cost ≤ s.cost := by
  intro schedule
  induction schedule with
  | nil =>
    intro s s' h
    simp only [Run.exec, Option.some.injEq] at h
    subst h
    simp
  | cons a rest ih =>
    intro s s' h
    simp only [Run.exec, Option.bind_eq_some] at h
    obtain ⟨s1, h1, h2⟩ := h
    have hlt := Transition.cost_lt Sum256 a s s1 (Run.step_transition Sum256 a s s1 h1)
    have := ih s1 s' h2
    simp only [List.length_cons]
    omega

theorem Run.exec_invariant (Sum256 : Digest) (P : Run → Prop) (Allowed : Action → Prop)
    (hstep : ∀ a s s', Allowed a → P s → Transition Sum256 a s s' → P s') :
    ∀ (schedule : List Action) (s s' : Run), (∀ a ∈ schedule, Allowed a) → P s →
      Run.exec Sum256 schedule s = some s' → P s' := by
  intro schedule
  induction schedule with
  | nil =>
    intro s s' _ hP h
    simp only [Run.exec, Option.some.injEq] at h
    subst h
    exact hP
  | cons a rest ih =>
    intro s s' hall hP h
    simp only [Run.exec, Option.bind_eq_some] at h
    obtain ⟨s1, h1, h2⟩ := h
    exact ih s1 s' (fun b hb => hall b (List.mem_cons_of_mem _ hb))
      (hstep a s s1 (hall a (List.mem_cons_self _ _)) hP
        (Run.step_transition Sum256 a s s1 h1)) h2

theorem not_all_exited (l : List Worker) (i : Nat) (w : Worker) (h : l[i]? = some w)
    (hw : w.isExited = false) : l.all Worker.isExited = false := by
  cases hall : l.all Worker.isExited with
  | false => rfl
  | true =>
    have := isExited_of_all l i w hall h
    rw [hw] at this
    exact absurd this (by simp)

set_option maxHeartbeats 1600000 in
theorem Transition.consistent (Sum256 : Digest) (e0 : Engine) (q : String) (a : Action)
    (s s' : Run) (h : Transition Sum256 a s s') (hi : s.Consistent e0 q) :
    s'.Consistent e0 q := by
  obtain ⟨h1, h2, h3, h4, h14, h5, h6, h7, h8, h9, h10, h11, h12, h13⟩ := hi
  cases h with
  | workerExit _ id now hp hw hq =>
    have hall := not_all_exited _ _ _ hw rfl
    refine ⟨?_, ?_, ?_, ?_, ?_, ?_, ?_, ?_, ?_, ?_, ?_, ?_, ?_, ?_⟩ <;>
      first | assumption | simp_all
  | workerQuit _ id now source rest cause hp hw hq hc =>
    have hall := not_all_exited _ _ _ hw rfl
    refine ⟨?_, ?_, ?_, ?_, ?_, ?_, ?_, ?_, ?_, ?_, ?_, ?_, ?_, ?_⟩ <;>
      first | assumption | simp_all
  | workerTake _ id now source rest hp hw hq hc =>
    have hall := not_all_exited _ _ _ hw rfl
    refine ⟨?_, ?_, ?_, ?_, ?_, ?_, ?_, ?_, ?_, ?_, ?_, ?_, ?_, ?_⟩ <;>
      first | assumption | simp_all
  | waitCancelled _ id now source cause hp hw hc =>
    have hall := not_all_exited _ _ _ hw rfl
    refine ⟨?_, ?_, ?_, ?_, ?_, ?_, ?_, ?_, ?_, ?_, ?_, ?_, ?_, ?_⟩ <;>
      first | assumption | simp_all
  | scrapeFailed _ id now source sourceJobs err hp hw hc ht hs =>
    have hall := not_all_exited _ _ _ hw rfl
    refine ⟨?_, ?_, ?_, ?_, ?_, ?_, ?_, ?_, ?_, ?_, ?_, ?_, ?_, ?_⟩ <;>
      first | assumption | simp_all
  | scrapeOk _ id now source sourceJobs hp hw hc ht hs =>
    have hall := not_all_exited _ _ _ hw rfl
    refine ⟨?_, ?_, ?_, ?_, ?_, ?_, ?_, ?_, ?_, ?_, ?_, ?_, ?_, ?_⟩ <;>
      first | assumption | simp_all
  | errPanic _ id now msg hp hw hx =>
    have hall := not_all_exited _ _ _ hw rfl
    refine ⟨?_, ?_, ?_, ?_, ?_, ?_, ?_, ?_, ?_, ?_, ?_, ?_, ?_, ?_⟩ <;>
      first | assumption | simp_all
  | errPush _ id now msg hp hw hx hl =>
    have hall := not_all_exited _ _ _ hw rfl
    refine ⟨?_, ?_, ?_, ?_, ?_, ?_, ?_, ?_, ?_, ?_, ?_, ?_, ?_, ?_⟩ <;>
      first | assumption | simp_all
  | jobPanic _ id now source job rest hp hw hx =>
    have hall := not_all_exited _ _ _ hw rfl
    refine ⟨?_, ?_, ?_, ?_, ?_, ?_, ?_, ?_, ?_, ?_, ?_, ?_, ?_, ?_⟩ <;>
      first | assumption | simp_all
  | jobPush _ id now source job rest hp hw hx hl =>
    have hall := not_all_exited _ _ _ hw rfl
    refine ⟨?_, ?_, ?_, ?_, ?_, ?_, ?_, ?_, ?_, ?_, ?_, ?_, ?_, ?_⟩ <;>
      first | assumption | simp_all
  | workerDone _ id source job rest cause hp hw hc =>
    have hall := not_all_exited _ _ _ hw rfl
    refine ⟨?_, ?_, ?_, ?_, ?_, ?_, ?_, ?_, ?_, ?_, ?_, ?_, ?_, ?_⟩ <;>
      first | assumption | simp_all
  | collectJob _ job rest hp hd hq =>
    refine ⟨?_, ?_, ?_, ?_, ?_, ?_, ?_, ?_, ?_, ?_, ?_, ?_, ?_, ?_⟩ <;>
      first | assumption | (simp_all <;> omega)
  | collectEnd _ hp hd hq hx =>
    refine ⟨?_, ?_, ?_, ?_, ?_, ?_, ?_, ?_, ?_, ?_, ?_, ?_, ?_, ?_⟩ <;>
      first | assumption | simp_all
  | collectErrItem _ err rest hp hd hq =>
    refine ⟨?_, ?_, ?_, ?_, ?_, ?_, ?_, ?_, ?_, ?_, ?_, ?_, ?_, ?_⟩ <;>
      first | assumption | (simp_all <;> omega)
  | collectErrEnd _ hp hd hq hx =>
    refine ⟨?_, ?_, ?_, ?_, ?_, ?_, ?_, ?_, ?_, ?_, ?_, ?_, ?_, ?_⟩ <;>
      first | assumption | simp_all
  | closePanic _ hp hd hw hx =>
    refine ⟨?_, ?_, ?_, ?_, ?_, ?_, ?_, ?_, ?_, ?_, ?_, ?_, ?_, ?_⟩ <;>
      first | assumption | simp_all
  | closeAll _ hp hd hw hx =>
    refine ⟨?_, ?_, ?_, ?_, ?_, ?_, ?_, ?_, ?_, ?_, ?_, ?_, ?_, ?_⟩ <;>
      first | assumption | simp_all
  | selectDone _ hp hm hd =>
    refine ⟨?_, ?_, ?_, ?_, ?_, ?_, ?_, ?_, ?_, ?_, ?_, ?_, ?_, ?_⟩ <;>
      first | assumption | simp_all
  | selectCtx _ cause hp hm hc =>
    refine ⟨?_, ?_, ?_, ?_, ?_, ?_, ?_, ?_, ?_, ?_, ?_, ?_, ?_, ?_⟩ <;>
      first | assumption | simp_all
  | finish _ now hp hm hd =>
    refine ⟨?_, ?_, ?_, ?_, ?_, ?_, ?_, ?_, ?_, ?_, ?_, ?_, ?_, ?_⟩ <;>
      first | assumption | simp_all
  | tick _ hp hr ht =>
    refine ⟨?_, ?_, ?_, ?_, ?_, ?_, ?_, ?_, ?_, ?_, ?_, ?_, ?_, ?_⟩ <;>
      first | assumption | simp_all
  | cancel _ cause hp hc =>
    refine ⟨?_, ?_, ?_, ?_, ?_, ?_, ?_, ?_, ?_, ?_, ?_, ?_, ?_, ?_⟩ <;>
      first | assumption | simp_all

theorem forall_mem_set (P : Worker → Prop) (l : List Worker) (i : Nat) (x : Worker)
    (hl : ∀ w ∈ l, P w) (hx : P x) : ∀ w ∈ l.set i x, P w := by
  intro w hw
  rcases mem_set_cases l i x w hw with h | h
  · exact hl w h
  · rw [h]; exact hx

theorem Worker.stamped_forward (Sum256 : Digest) (e0 : Engine) (q : String) (now : Int)
    (source : JobSource) (js : List Job) (hsrc : source ∈ e0.sources)
    (hok : (source.Scrape q).2 = none) (hjs : ∀ r ∈ js, r ∈ (source.Scrape q).1) :
    (Worker.forward Sum256 now source js).Stamped Sum256 e0 q := by
  cases js with
  | nil => simp [Worker.forward, Worker.Stamped]
  | cons job rest =>
    refine ⟨hsrc, hok, ⟨source, hsrc, hok, job, hjs job (List.mem_cons_self _ _), now, rfl⟩, ?_⟩
    intro r hr
    exact hjs r (List.mem_cons_of_mem _ hr)

theorem Transition.stamped (Sum256 : Digest) (e0 : Engine) (q : String) (a : Action)
    (s s' : Run) (h : Transition Sum256 a s s') (hq0 : s.query = q)
    (hi : s.Stamped Sum256 e0 q) : s'.Stamped Sum256 e0 q := by
  obtain ⟨h1, h2, h3, h4⟩ := hi
  cases h with
  | workerExit _ id now hp hw hq =>
    exact ⟨h1, forall_mem_set _ _ _ _ h2 trivial, h3, h4⟩
  | workerQuit _ id now source rest cause hp hw hq hc =>
    refine ⟨?_, forall_mem_set _ _ _ _ h2 trivial, h3, h4⟩
    intro x hx
    exact h1 x (by rw [hq]; exact List.mem_cons_of_mem _ hx)
  | workerTake _ id now source rest hp hw hq hc =>
    refine ⟨?_, forall_mem_set _ _ _ _ h2 ?_, h3, h4⟩
    · intro x hx
      exact h1 x (by rw [hq]; exact List.mem_cons_of_mem _ hx)
    · exact h1 source (by rw [hq]; exact List.mem_cons_self _ _)
  | waitCancelled _ id now source cause hp hw hc =>
    exact ⟨h1, forall_mem_set _ _ _ _ h2 trivial, h3, h4⟩
  | scrapeFailed _ id now source sourceJobs err hp hw hc ht hs =>
    exact ⟨h1, forall_mem_set _ _ _ _ h2 trivial, h3, h4⟩
  | scrapeOk _ id now source sourceJobs hp hw hc ht hs =>
    refine ⟨h1, forall_mem_set _ _ _ _ h2 ?_, h3, h4⟩
    have hsrc : source ∈ e0.sources := h2 _ (List.getElem?_mem hw)
    rw [hq0] at hs
    exact Worker.stamped_forward Sum256 e0 q now source sourceJobs hsrc (by rw [hs])
      (by rw [hs]; exact fun r hr => hr)
  | errPanic _ id now msg hp hw hx => exact ⟨h1, h2, h3, h4⟩
  | errPush _ id now msg hp hw hx hl =>
    exact ⟨h1, forall_mem_set _ _ _ _ h2 trivial, h3, h4⟩
  | jobPanic _ id now source job rest hp hw hx => exact ⟨h1, h2, h3, h4⟩
  | jobPush _ id now source job rest hp hw hx hl =>
    obtain ⟨hsrc, hok, hjob, hrest⟩ := h2 _ (List.getElem?_mem hw)
    refine ⟨h1, forall_mem_set _ _ _ _ h2 ?_, ?_, h4⟩
    · exact Worker.stamped_forward Sum256 e0 q now source rest hsrc hok hrest
    · intro j hj
      rcases List.mem_append.mp hj with hj | hj
      · exact h3 j hj
      · rw [List.mem_singleton.mp hj]; exact hjob
  | workerDone _ id source job rest cause hp hw hc =>
    exact ⟨h1, forall_mem_set _ _ _ _ h2 trivial, h3, h4⟩
  | collectJob _ job rest hp hd hq =>
    refine ⟨h1, h2, ?_, ?_⟩
    · intro j hj
      exact h3 j (by rw [hq]; exact List.mem_cons_of_mem _ hj)
    · intro j hj
      rcases List.mem_append.mp hj with hj | hj
      · exact h4 j hj
      · rw [List.mem_singleton.mp hj]
        exact h3 job (by rw [hq]; exact List.mem_cons_self _ _)
  | collectEnd _ hp hd hq hx => exact ⟨h1, h2, h3, h4⟩
  | collectErrItem _ err rest hp hd hq => exact ⟨h1, h2, h3, h4⟩
  | collectErrEnd _ hp hd hq hx => exact ⟨h1, h2, h3, h4⟩
  | closePanic _ hp hd hw hx => exact ⟨h1, h2, h3, h4⟩
  | closeAll _ hp hd hw hx => exact ⟨h1, h2, h3, h4⟩
  | selectDone _ hp hm hd => exact ⟨h1, h2, h3, h4⟩
  | selectCtx _ cause hp hm hc => exact ⟨h1, h2, h3, h4⟩
  | finish _ now hp hm hd => exact ⟨h1, h2, h3, h4⟩
  | tick _ hp hr ht => exact ⟨h1, h2, h3, h4⟩
  | cancel _ cause hp hc => exact ⟨h1, h2, h3, h4⟩

theorem Run.Consistent.busy (e0 : Engine) (q : String) (s : Run) (i : Nat) (w : Worker)
    (hc : s.Consistent e0 q) (hw : s.workers[i]? = some w) (hne : w.isExited = false) :
    s.done = false ∧ s.jobsChClosed = false := by
  have hall := not_all_exited _ _ _ hw hne
  constructor
  · cases hd : s.done with
    | false => rfl
    | true => rw [(hc.doneExited hd).1] at hall; exact absurd hall (by simp)
  · cases hd : s.jobsChClosed with
    | false => rfl
    | true => rw [hc.closedExited hd] at hall; exact absurd hall (by simp)

@[simp]
theorem Worker.isExited_ready : Worker.ready.isExited = false := rfl

@[simp]
theorem Worker.isExited_waiting (source : JobSource) :
    (Worker.waiting source).isExited = false := rfl

@[simp]
theorem Worker.isExited_failing (msg : String) : (Worker.failing msg).isExited = false := rfl

@[simp]
theorem Worker.isExited_sending (source : JobSource) (job : Job) (rest : List Job) :
    (Worker.sending source job rest).isExited = false := rfl

@[simp]
theorem Worker.isExited_exited : Worker.exited.isExited = true := rfl

theorem Worker.isExited_forward (Sum256 : Digest) (now : Int) (source : JobSource)
    (js : List Job) : (Worker.forward Sum256 now source js).isExited = false := by
  cases js <;> rfl

theorem drained_set (l : List Worker) (i : Nat) (x : Worker) (S S' : List JobSource)
    (hl : ∀ w ∈ l, w.isExited = true → S = []) (hS : S = [] → S' = [])
    (hx : x.isExited = true → S' = []) :
    ∀ w ∈ l.set i x, w.isExited = true → S' = [] := by
  intro w hw he
  rcases mem_set_cases l i x w hw with h | h
  · exact hS (hl w h he)
  · rw [h] at he; exact hx he

theorem Transition.live (Sum256 : Digest) (e0 : Engine) (q : String) (a : Action)
    (s s' : Run) (h : Transition Sum256 a s s') (hna : a.isCancel = false)
    (hc : s.Consistent e0 q) (hi : s.Live) : s'.Live := by
  obtain ⟨h1, h2, h3, h4, h5⟩ := hi
  cases h with
  | workerExit _ id now hp hw hq =>
    obtain ⟨hnd, hnc⟩ := Run.Consistent.busy e0 q s id _ hc hw rfl
    refine ⟨?_, ?_, ?_, drained_set _ _ _ _ _ h4 ?_ ?_, ?_⟩ <;>
      simp_all [Worker.isExited_forward]
  | workerQuit _ id now source rest cause hp hw hq hc' =>
    obtain ⟨hnd, hnc⟩ := Run.Consistent.busy e0 q s id _ hc hw rfl
    rw [h1] at hc'; exact absurd hc' (by simp)
  | workerTake _ id now source rest hp hw hq hc' =>
    obtain ⟨hnd, hnc⟩ := Run.Consistent.busy e0 q s id _ hc hw rfl
    refine ⟨?_, ?_, ?_, drained_set _ _ _ _ _ h4 ?_ ?_, ?_⟩ <;>
      simp_all [Worker.isExited_forward]
  | waitCancelled _ id now source cause hp hw hc' =>
    obtain ⟨hnd, hnc⟩ := Run.Consistent.busy e0 q s id _ hc hw rfl
    rw [h1] at hc'; exact absurd hc' (by simp)
  | scrapeFailed _ id now source sourceJobs err hp hw hc' ht hs =>
    obtain ⟨hnd, hnc⟩ := Run.Consistent.busy e0 q s id _ hc hw rfl
    refine ⟨?_, ?_, ?_, drained_set _ _ _ _ _ h4 ?_ ?_, ?_⟩ <;>
      simp_all [Worker.isExited_forward]
  | scrapeOk _ id now source sourceJobs hp hw hc' ht hs =>
    obtain ⟨hnd, hnc⟩ := Run.Consistent.busy e0 q s id _ hc hw rfl
    refine ⟨?_, ?_, ?_, drained_set _ _ _ _ _ h4 ?_ ?_, ?_⟩ <;>
      simp_all [Worker.isExited_forward]
  | errPanic _ id now msg hp hw hx =>
    obtain ⟨hnd, hnc⟩ := Run.Consistent.busy e0 q s id _ hc hw rfl
    rw [h3, hnd] at hx; exact absurd hx (by simp)
  | errPush _ id now msg hp hw hx hl =>
    obtain ⟨hnd, hnc⟩ := Run.Consistent.busy e0 q s id _ hc hw rfl
    refine ⟨?_, ?_, ?_, drained_set _ _ _ _ _ h4 ?_ ?_, ?_⟩ <;>
      simp_all [Worker.isExited_forward]
  | jobPanic _ id now source job rest hp hw hx =>
    obtain ⟨hnd, hnc⟩ := Run.Consistent.busy e0 q s id _ hc hw rfl
    rw [hnc] at hx; exact absurd hx (by simp)
  | jobPush _ id now source job rest hp hw hx hl =>
    obtain ⟨hnd, hnc⟩ := Run.Consistent.busy e0 q s id _ hc hw rfl
    refine ⟨?_, ?_, ?_, drained_set _ _ _ _ _ h4 ?_ ?_, ?_⟩ <;>
      simp_all [Worker.isExited_forward]
  | workerDone _ id source job rest cause hp hw hc' =>
    obtain ⟨hnd, hnc⟩ := Run.Consistent.busy e0 q s id _ hc hw rfl
    rw [h1] at hc'; exact absurd hc' (by simp)
  | collectJob _ job rest hp hd hq =>
    refine ⟨?_, ?_, ?_, ?_, ?_⟩ <;> first | assumption | simp_all
  | collectEnd _ hp hd hq hx =>
    refine ⟨?_, ?_, ?_, ?_, ?_⟩ <;> first | assumption | simp_all
  | collectErrItem _ err rest hp hd hq =>
    refine ⟨?_, ?_, ?_, ?_, ?_⟩ <;> first | assumption | simp_all
  | collectErrEnd _ hp hd hq hx =>
    refine ⟨?_, ?_, ?_, ?_, ?_⟩ <;> first | assumption | simp_all
  | closePanic _ hp hd hw hx =>
    rw [h3, hd] at hx; exact absurd hx (by simp)
  | closeAll _ hp hd hw hx =>
    refine ⟨?_, ?_, ?_, ?_, ?_⟩ <;> first | assumption | simp_all
  | selectDone _ hp hm hd =>
    refine ⟨?_, ?_, ?_, ?_, ?_⟩ <;> first | assumption | simp_all
  | selectCtx _ cause hp hm hc' =>
    rw [h1] at hc'; exact absurd hc' (by simp)
  | finish _ now hp hm hd =>
    refine ⟨?_, ?_, ?_, ?_, ?_⟩ <;> first | assumption | simp_all
  | tick _ hp hr ht =>
    refine ⟨?_, ?_, ?_, ?_, ?_⟩ <;> first | assumption | simp_all
  | cancel _ cause hp hc' =>
    simp [Action.isCancel] at hna

theorem account_step {M : Type} [AddCancelCommMonoid M] (A A' Pold Pnew X X' T : M)
    (hsum : A' + Pold = A + Pnew) (hinv : X + A = T) (hx : X' + Pnew = X + Pold) :
    X' + A' = T := by
  apply add_right_cancel (b := Pold)
  calc X' + A' + Pold = X' + (A' + Pold) := by rw [add_assoc]
    _ = X' + (A + Pnew) := by rw [hsum]
    _ = (X' + Pnew) + A := by abel
    _ = (X + Pold) + A := by rw [hx]
    _ = (X + A) + Pold := by abel
    _ = T + Pold := by rw [hinv]

theorem unstamped_tagJob (Sum256 : Digest) (now : Int) (job : Job) :
    unstamped (tagJob Sum256 now job) = unstamped job := rfl

theorem Worker.pending_forward (Sum256 : Digest) (now : Int) (source : JobSource) (q : String)
    (js : List Job) :
    (Worker.forward Sum256 now source js).pending q = ((js.map unstamped : List Job)) := by
  cases js with
  | nil => rfl
  | cons job rest =>
    simp only [Worker.forward, Worker.pending, List.map_cons, unstamped_tagJob]

theorem Worker.holding_forward (Sum256 : Digest) (now : Int) (source : JobSource)
    (js : List Job) : (Worker.forward Sum256 now source js).holding = 0 := by
  cases js <;> rfl

theorem Worker.failure_forward (Sum256 : Digest) (now : Int) (source : JobSource) (q : String)
    (js : List Job) : (Worker.forward Sum256 now source js).failure q = 0 := by
  cases js <;> rfl

theorem Worker.failure_waiting (q : String) (source : JobSource) :
    (Worker.waiting source).failure q = (failureOf q source : List String) := by
  simp only [Worker.failure, failureOf]
  split <;> rfl

theorem Transition.accounted (Sum256 : Digest) (e0 : Engine) (q : String) (a : Action)
    (s s' : Run) (h : Transition Sum256 a s s') (hq0 : s.query = q)
    (hlive : s.ctx.err = none) (hna : a.isCancel = false) (hi : s.Accounted e0 q) :
    s'.Accounted e0 q := by
  subst hq0
  obtain ⟨h1, h2, h3⟩ := hi
  cases h with
  | workerExit _ id now hp hw hq =>
    refine ⟨?_, ?_, ?_⟩
    · exact account_step _ _ _ _ _ _ _
        (sum_map_set (Worker.pending s.query) s.workers id _ Worker.exited hw) h1 rfl
    · exact account_step _ _ _ _ _ _ _
        (sum_map_set Worker.holding s.workers id _ Worker.exited hw) h2 rfl
    · exact account_step _ _ _ _ _ _ _
        (sum_map_set (Worker.failure s.query) s.workers id _ Worker.exited hw) h3 rfl
  | workerQuit _ id now source rest cause hp hw hq hc' =>
    rw [hlive] at hc'; exact absurd hc' (by simp)
  | workerTake _ id now source rest hp hw hq hc' =>
    refine ⟨?_, ?_, ?_⟩
    · refine account_step _ _ _ _ _ _ _
        (sum_map_set (Worker.pending s.query) s.workers id _ (Worker.waiting source) hw) h1 ?_
      simp only [hq, List.flatMap_cons, List.map_append, Worker.pending, ← Multiset.coe_add]
      abel
    · refine account_step _ _ _ _ _ _ _
        (sum_map_set Worker.holding s.workers id _ (Worker.waiting source) hw) h2 ?_
      simp only [hq, Worker.holding, ← Multiset.cons_coe, ← Multiset.singleton_add]
      abel
    · refine account_step _ _ _ _ _ _ _
        (sum_map_set (Worker.failure s.query) s.workers id _ (Worker.waiting source) hw) h3 ?_
      rw [Worker.failure_waiting]
      simp only [hq, List.flatMap_cons, Worker.failure, ← Multiset.coe_add]
      abel
  | waitCancelled _ id now source cause hp hw hc' =>
    rw [hlive] at hc'; exact absurd hc' (by simp)
  | scrapeFailed _ id now source sourceJobs err hp hw hc' ht hs =>
    refine ⟨?_, ?_, ?_⟩
    · refine account_step _ _ _ _ _ _ _
        (sum_map_set (Worker.pending s.query) s.workers id _
          (Worker.failing (source.Name ++ " scraper failed: " ++ err)) hw) h1 ?_
      simp only [Worker.pending, okJobs, hs, List.map_nil, Multiset.coe_nil]
    · refine account_step _ _ _ _ _ _ _
        (sum_map_set Worker.holding s.workers id _
          (Worker.failing (source.Name ++ " scraper failed: " ++ err)) hw) h2 ?_
      simp only [Worker.holding, ← Multiset.coe_add, ← Multiset.cons_coe,
        ← Multiset.singleton_add, Multiset.coe_nil]
      abel
    · refine account_step _ _ _ _ _ _ _
        (sum_map_set (Worker.failure s.query) s.workers id _
          (Worker.failing (source.Name ++ " scraper failed: " ++ err)) hw) h3 ?_
      simp only [Worker.failure, hs]
  | scrapeOk _ id now source sourceJobs hp hw hc' ht hs =>
    refine ⟨?_, ?_, ?_⟩
    · refine account_step _ _ _ _ _ _ _
        (sum_map_set (Worker.pending s.query) s.workers id _
          (Worker.forward Sum256 now source sourceJobs) hw) h1 ?_
      rw [Worker.pending_forward]
      simp only [Worker.pending, okJobs, hs]
    · refine account_step _ _ _ _ _ _ _
        (sum_map_set Worker.holding s.workers id _
          (Worker.forward Sum256 now source sourceJobs) hw) h2 ?_
      rw [Worker.holding_forward]
      simp only [Worker.holding, ← Multiset.coe_add, ← Multiset.cons_coe,
        ← Multiset.singleton_add, Multiset.coe_nil]
      abel
    · refine account_step _ _ _ _ _ _ _
        (sum_map_set (Worker.failure s.query) s.workers id _
          (Worker.forward Sum256 now source sourceJobs) hw) h3 ?_
      rw [Worker.failure_forward]
      simp only [Worker.failure, hs]
  | errPanic _ id now msg hp hw hx => exact ⟨h1, h2, h3⟩
  | errPush _ id now msg hp hw hx hl =>
    refine ⟨?_, ?_, ?_⟩
    · exact account_step _ _ _ _ _ _ _
        (sum_map_set (Worker.pending s.query) s.workers id _ Worker.ready hw) h1 rfl
    · exact account_step _ _ _ _ _ _ _
        (sum_map_set Worker.holding s.workers id _ Worker.ready hw) h2 rfl
    · refine account_step _ _ _ _ _ _ _
        (sum_map_set (Worker.failure s.query) s.workers id _ Worker.ready hw) h3 ?_
      simp only [Worker.failure, ← Multiset.coe_add, ← Multiset.cons_coe,
        ← Multiset.singleton_add, Multiset.coe_nil]
      abel
  | jobPanic _ id now source job rest hp hw hx => exact ⟨h1, h2, h3⟩
  | jobPush _ id now source job rest hp hw hx hl =>
    refine ⟨?_, ?_, ?_⟩
    · refine account_step _ _ _ _ _ _ _
        (sum_map_set (Worker.pending s.query) s.workers id _
          (Worker.forward Sum256 now source rest) hw) h1 ?_
      rw [Worker.pending_forward]
      simp only [Worker.pending, List.map_append, List.map_cons, List.map_nil,
        ← Multiset.coe_add, ← Multiset.cons_coe, ← Multiset.singleton_add, Multiset.coe_nil]
      abel
    · refine account_step _ _ _ _ _ _ _
        (sum_map_set Worker.holding s.workers id _
          (Worker.forward Sum256 now source rest) hw) h2 ?_
      rw [Worker.holding_forward]
      rfl
    · refine account_step _ _ _ _ _ _ _
        (sum_map_set (Worker.failure s.query) s.workers id _
          (Worker.forward Sum256 now source rest) hw) h3 ?_
      rw [Worker.failure_forward]
      rfl
  | workerDone _ id source job rest cause hp hw hc' =>
    rw [hlive] at hc'; exact absurd hc' (by simp)
  | collectJob _ job rest hp hd hq =>
    refine ⟨?_, h2, h3⟩
    rw [← h1]
    simp only [hq, List.map_append, List.map_cons, List.map_nil,
      ← Multiset.coe_add, ← Multiset.cons_coe, ← Multiset.singleton_add, Multiset.coe_nil]
    abel
  | collectEnd _ hp hd hq hx => exact ⟨h1, h2, h3⟩
  | collectErrItem _ err rest hp hd hq =>
    refine ⟨h1, h2, ?_⟩
    rw [← h3]
    simp only [hq, ← Multiset.coe_add, ← Multiset.cons_coe, ← Multiset.singleton_add,
      Multiset.coe_nil]
    abel
  | collectErrEnd _ hp hd hq hx => exact ⟨h1, h2, h3⟩
  | closePanic _ hp hd hw hx => exact ⟨h1, h2, h3⟩
  | closeAll _ hp hd hw hx => exact ⟨h1, h2, h3⟩
  | selectDone _ hp hm hd => exact ⟨h1, h2, h3⟩
  | selectCtx _ cause hp hm hc' => exact ⟨h1, h2, h3⟩
  | finish _ now hp hm hd => exact ⟨h1, h2, h3⟩
  | tick _ hp hr ht => exact ⟨h1, h2, h3⟩
  | cancel _ cause hp hc' => simp [Action.isCancel] at hna

theorem sum_map_replicate_zero {α M : Type} [AddCommMonoid M] (f : α → M) (x : α) (n : Nat)
    (hx : f x = 0) : ((List.replicate n x).map f).sum = 0 := by
  induction n with
  | zero => rfl
  | succ n ih => simp only [List.replicate_succ, List.map_cons, List.sum_cons, hx, ih, add_zero]

theorem Engine.Start_consistent (e : Engine) (ctx : Context) (q : String) (now : Int) :
    (e.Start ctx q now).Consistent e q := by
  refine ⟨rfl, rfl, rfl, rfl, ?_, ?_, ?_, ?_, ?_, ?_, ?_, ?_, ?_, ?_⟩ <;> simp [Engine.Start]

theorem Engine.Start_stamped (Sum256 : Digest) (e : Engine) (ctx : Context) (q : String)
    (now : Int) : (e.Start ctx q now).Stamped Sum256 e q := by
  refine ⟨fun x hx => hx, ?_, ?_, ?_⟩
  · intro w hw
    rw [List.eq_of_mem_replicate hw]
    trivial
  · intro j hj; simp [Engine.Start] at hj
  · intro j hj; simp [Engine.Start] at hj

theorem Engine.Start_live (e : Engine) (ctx : Context) (q : String) (now : Int)
    (hctx : ctx.err = none) (hopen : e.errChClosed = false) : (e.Start ctx q now).Live := by
  refine ⟨hctx, rfl, hopen, ?_, ?_⟩
  · intro w hw he
    rw [List.eq_of_mem_replicate hw] at he
    simp at he
  · intro h; simp [Engine.Start] at h

theorem Engine.Start_accounted (e : Engine) (ctx : Context) (q : String) (now : Int) :
    (e.Start ctx q now).Accounted e q := by
  refine ⟨?_, ?_, ?_⟩
  · simp only [Engine.Start, List.map_nil, Multiset.coe_nil, zero_add]
    rw [sum_map_replicate_zero (Worker.pending q) Worker.ready _ rfl, add_zero]
  · simp only [Engine.Start, Multiset.coe_nil, zero_add]
    rw [sum_map_replicate_zero Worker.holding Worker.ready _ rfl, add_zero]
  · simp only [Engine.Start, Multiset.coe_nil, zero_add]
    rw [sum_map_replicate_zero (Worker.failure q) Worker.ready _ rfl, add_zero]

theorem Run.exec_consistent (Sum256 : Digest) (e : Engine) (ctx : Context) (q : String)
    (now : Int) (schedule : List Action) (s : Run)
    (h : Run.exec Sum256 schedule (e.Start ctx q now) = some s) :
    s.Consistent e q ∧ s.Stamped Sum256 e q := by
  refine Run.exec_invariant Sum256 (fun s => s.Consistent e q ∧ s.Stamped Sum256 e q)
    (fun _ => True) ?_ schedule _ s (fun _ _ => trivial)
    ⟨Engine.Start_consistent e ctx q now, Engine.Start_stamped Sum256 e ctx q now⟩ h
  intro a s1 s2 _ hP ht
  exact ⟨Transition.consistent Sum256 e q a s1 s2 ht hP.1,
    Transition.stamped Sum256 e q a s1 s2 ht hP.1.sameQuery hP.2⟩

theorem Run.exec_live (Sum256 : Digest) (e : Engine) (ctx : Context) (q : String)
    (now : Int) (schedule : List Action) (s : Run)
    (hctx : ctx.err = none) (hopen : e.errChClosed = false)
    (hno : ∀ a ∈ schedule, a.isCancel = false)
    (h : Run.exec Sum256 schedule (e.Start ctx q now) = some s) :
    s.Consistent e q ∧ s.Live ∧ s.Accounted e q := by
  refine Run.exec_invariant Sum256 (fun s => s.Consistent e q ∧ s.Live ∧ s.Accounted e q)
    (fun a => a.isCancel = false) ?_ schedule _ s hno
    ⟨Engine.Start_consistent e ctx q now, Engine.Start_live e ctx q now hctx hopen,
      Engine.Start_accounted e ctx q now⟩ h
  intro a s1 s2 hna hP ht
  exact ⟨Transition.consistent Sum256 e q a s1 s2 ht hP.1,
    Transition.live Sum256 e q a s1 s2 ht hna hP.1 hP.2.1,
    Transition.accounted Sum256 e q a s1 s2 ht hP.1.sameQuery hP.2.1.ctxLive hna hP.2.2⟩

theorem Run.progress (Sum256 : Digest) (e : Engine) (q : String) (s : Run)
    (hc : s.Consistent e q) (hs : s.Stamped Sum256 e q) (hl : s.Live)
    (hcap : e.sources = [] ∨ 1 ≤ e.rateLimiter.maxTokens)
    (hrefill : e.rateLimiter.refilling = true) (hnr : s.main.isReturned = false) :
    ∃ a : Action, a.isCancel = false ∧ ∃ s' : Run, s.step Sum256 a = some s' := by
  have hp := hl.noPanic
  have hctx := hl.ctxLive
  by_cases hall : s.workers.all Worker.isExited = true
  · cases hd : s.done with
    | false =>
      have hx : s.e.errChClosed = false := by rw [hl.errOpen, hd]
      exact ⟨Action.close, rfl, _,
        Transition.step_eq Sum256 _ _ _ (Transition.closeAll s hp hd hall hx)⟩
    | true =>
      cases hm : s.main with
      | selecting =>
        exact ⟨Action.selectDone, rfl, _,
          Transition.step_eq Sum256 _ _ _ (Transition.selectDone s hp hm hd)⟩
      | draining =>
        cases hcd : s.collectorDone with
        | true =>
          exact ⟨Action.finish 0, rfl, _,
            Transition.step_eq Sum256 _ _ _ (Transition.finish s 0 hp hm hcd)⟩
        | false =>
          cases hq : s.jobsCh with
          | nil =>
            exact ⟨Action.collect, rfl, _,
              Transition.step_eq Sum256 _ _ _
                (Transition.collectEnd s hp hcd hq (hc.doneExited hd).2.1)⟩
          | cons job rest =>
            exact ⟨Action.collect, rfl, _,
              Transition.step_eq Sum256 _ _ _ (Transition.collectJob s job rest hp hcd hq)⟩
      | returned js err =>
        rw [hm] at hnr
        exact absurd hnr (by simp [MainState.isReturned])
  · have hex : ∃ w ∈ s.workers, w.isExited = false := by
      simpa [List.all_eq_true] using hall
    obtain ⟨w, hwm, hwe⟩ := hex
    obtain ⟨id, hw⟩ := List.getElem?_of_mem hwm
    obtain ⟨hnd, hnc⟩ := Run.Consistent.busy e q s id w hc hw hwe
    cases w with
    | exited => exact absurd hwe (by simp)
    | ready =>
      cases hq : s.sourceCh with
      | nil =>
        exact ⟨Action.worker id 0, rfl, _,
          Transition.step_eq Sum256 _ _ _ (Transition.workerExit s id 0 hp hw hq)⟩
      | cons source rest =>
        exact ⟨Action.worker id 0, rfl, _,
          Transition.step_eq Sum256 _ _ _
            (Transition.workerTake s id 0 source rest hp hw hq hctx)⟩
    | waiting source =>
      by_cases ht : 0 < s.e.rateLimiter.tokens
      · cases hscr : source.Scrape s.query with
        | mk js eo =>
          cases eo with
          | none =>
            exact ⟨Action.worker id 0, rfl, _,
              Transition.step_eq Sum256 _ _ _
                (Transition.scrapeOk s id 0 source js hp hw hctx ht hscr)⟩
          | some err =>
            exact ⟨Action.worker id 0, rfl, _,
              Transition.step_eq Sum256 _ _ _
                (Transition.scrapeFailed s id 0 source js err hp hw hctx ht hscr)⟩
      · have hsrc : source ∈ e.sources := hs.held _ hwm
        have hmax : 1 ≤ s.e.rateLimiter.maxTokens := by
          rw [hc.capacity]
          rcases hcap with h0 | h1
          · rw [h0] at hsrc; exact absurd hsrc (by simp)
          · exact h1
        have hr : s.e.rateLimiter.refilling = true := by rw [hc.refilling, hrefill]
        have hne : s.e.rateLimiter.tokens ≠ s.e.rateLimiter.maxTokens := by omega
        exact ⟨Action.tick, rfl, _,
          Transition.step_eq Sum256 _ _ _ (Transition.tick s hp hr hne)⟩
    | failing msg =>
      have hx : s.e.errChClosed = false := by rw [hl.errOpen, hnd]
      by_cases hlen : s.errCh.length < errChCap
      · exact ⟨Action.worker id 0, rfl, _,
          Transition.step_eq Sum256 _ _ _ (Transition.errPush s id 0 msg hp hw hx hlen)⟩
      · have hcd : s.errCollectorDone = false := by
          cases hcd : s.errCollectorDone with
          | false => rfl
          | true => rw [hl.errCollector hcd] at hx; exact absurd hx (by simp)
        cases hq : s.errCh with
        | nil => rw [hq] at hlen; exact absurd (by simp [errChCap]) hlen
        | cons err rest =>
          exact ⟨Action.collectErr, rfl, _,
            Transition.step_eq Sum256 _ _ _ (Transition.collectErrItem s err rest hp hcd hq)⟩
    | sending source job rest =>
      by_cases hlen : s.jobsCh.length < jobsChCap
      · exact ⟨Action.worker id 0, rfl, _,
          Transition.step_eq Sum256 _ _ _
            (Transition.jobPush s id 0 source job rest hp hw hnc hlen)⟩
      · have hcd : s.collectorDone = false := by
          cases hcd : s.collectorDone with
          | false => rfl
          | true => rw [(hc.collected hcd).1] at hnc; exact absurd hnc (by simp)
        cases hq : s.jobsCh with
        | nil => rw [hq] at hlen; exact absurd (by simp [jobsChCap]) hlen
        | cons j js =>
          exact ⟨Action.collect, rfl, _,
            Transition.step_eq Sum256 _ _ _ (Transition.collectJob s j js hp hcd hq)⟩

theorem sum_map_exited {M : Type} [AddCommMonoid M] (f : Worker → M)
    (hf : f Worker.exited = 0) :
    ∀ l : List Worker, l.all Worker.isExited = true → (l.map f).sum = 0 := by
  intro l
  induction l with
  | nil => intro _; rfl
  | cons w l ih =>
    intro hall
    simp only [List.all_cons, Bool.and_eq_true] at hall
    cases w with
    | exited => simp only [List.map_cons, List.sum_cons, hf, ih hall.2, add_zero]
    | ready => exact absurd hall.1 (by simp)
    | waiting source => exact absurd hall.1 (by simp)
    | failing msg => exact absurd hall.1 (by simp)
    | sending source job rest => exact absurd hall.1 (by simp)

/-- When `Start` has returned a nil error in a run whose context was not
cancelled, the postings it returns are, up to the stamp, those of the sources
that were scraped; with at least one worker, every registered source was
scraped, once. -/
theorem Run.completed (e : Engine) (q : String) (s : Run) (js : List Job)
    (hc : s.Consistent e q) (hl : s.Live) (ha : s.Accounted e q)
    (hm : s.main = MainState.returned js none) :
    List.Perm (js.map unstamped) ((s.scraped.flatMap (okJobs q)).map unstamped) ∧
    (1 ≤ e.workers → List.Perm s.scraped e.sources) := by
  obtain ⟨hjs, hcd, hd⟩ := hc.returnedOk js hm
  have hall := (hc.doneExited hd).1
  have hch := (hc.collected hcd).2
  have hsrc := ha.sources
  have hpost := ha.postings
  rw [sum_map_exited _ rfl _ hall, add_zero] at hsrc hpost
  rw [hch] at hpost
  simp only [List.map_nil, Multiset.coe_nil, add_zero] at hpost
  rw [Multiset.coe_add, Multiset.coe_eq_coe] at hsrc
  have hperm : List.Perm (((s.scraped ++ s.sourceCh).flatMap (okJobs q)).map unstamped)
      ((e.sources.flatMap (okJobs q)).map unstamped) :=
    (List.Perm.flatMap_right _ hsrc).map _
  rw [← Multiset.coe_eq_coe, ← hpost, List.flatMap_append, List.map_append,
    ← Multiset.coe_add] at hperm
  have hj := add_right_cancel hperm
  rw [Multiset.coe_eq_coe] at hj
  refine ⟨by rw [hjs]; exact hj.symm, ?_⟩
  intro hw
  have hlen : 0 < s.workers.length := by rw [hc.workerCount]; omega
  obtain ⟨w, hwm⟩ := List.exists_mem_of_length_pos hlen
  have hwe : w.isExited = true := (List.all_eq_true.mp hall) w hwm
  have hq := hl.drained w hwm hwe
  rw [hq, List.append_nil] at hsrc
  exact hsrc

theorem foldl_RegisterSource (sources : List JobSource) :
    ∀ e : Engine, sources.foldl Engine.RegisterSource e =
      { e with sources := e.sources ++ sources } := by
  induction sources with
  | nil => intro e; simp
  | cons x xs ih =>
    intro e
    simp only [List.foldl_cons, ih, Engine.RegisterSource, List.append_assoc,
      List.singleton_append]

theorem freshEngine_eq (w c : Int) (sources : List JobSource) :
    freshEngine w c sources = { NewEngine w c with sources := sources } := by
  simp [freshEngine, foldl_RegisterSource, NewEngine]

/-- C11. `RegisterSource` leaves the registry equal to the old registry followed
by the new source: the length grows by one, the entries that were there stay in
their order, and no check on the name is made, so a source whose name is
registered already is appended like any other; the worker count, the rate
limiter, the statistics and the error channel are unchanged. -/
theorem RegisterSource_appends (e : Engine) (source : JobSource) :
    (e.RegisterSource source).sources = e.sources ++ [source] ∧
    (e.RegisterSource source).sources.length = e.sources.length + 1 ∧
    (e.RegisterSource source).sources.take e.sources.length = e.sources ∧
    (e.RegisterSource source).sources.drop e.sources.length = [source] ∧
    ((e.RegisterSource source).RegisterSource source).sources =
      e.sources ++ [source, source] ∧
    (e.RegisterSource source).workers = e.workers ∧
    (e.RegisterSource source).rateLimiter = e.rateLimiter ∧
    (e.RegisterSource source).stats = e.stats ∧
    (e.RegisterSource source).errChClosed = e.errChClosed := by
  refine ⟨rfl, by simp [Engine.RegisterSource], by simp [Engine.RegisterSource],
    by simp [Engine.RegisterSource], by simp [Engine.RegisterSource], rfl, rfl, rfl, rfl⟩

/-- C12. In a run on a fresh engine with at least one worker and a limiter
capacity of at least the number of sources, under a context that is not
cancelled: as long as `Start` has not returned some goroutine can take a step,
and no schedule is longer than the bound `Run.cost`, so `Start` returns; when
it has returned, its error is nil, every registered source has been scraped
exactly once (sources of the same name included), and the result set is a
permutation of the concatenation of the posting lists of the sources whose
`Scrape` returned a nil error, each posting carrying the Hash and ScrapedAt
stamped by the worker, however many of the other sources fail. -/
theorem Start_returns_successful_postings (Sum256 : Digest) (w c : Int)
    (sources : List JobSource) (ctx : Context) (q : String) (now : Int)
    (schedule : List Action) (s : Run)
    (hw : 1 ≤ w) (hc : (sources.length : Int) ≤ c) (hctx : ctx.err = none)
    (hno : ∀ a ∈ schedule, a.isCancel = false)
    (h : Run.exec Sum256 schedule ((freshEngine w c sources).Start ctx q now) = some s) :
    (s.main.isReturned = false →
      ∃ a : Action, a.isCancel = false ∧ ∃ s' : Run, s.step Sum256 a = some s') ∧
    schedule.length ≤ ((freshEngine w c sources).Start ctx q now).cost ∧
    ∀ (js : List Job) (err : Option CtxErr), s.main = MainState.returned js err →
      err = none ∧ List.Perm s.scraped sources ∧
      List.Perm (js.map unstamped) ((sources.flatMap (okJobs q)).map unstamped) := by
  have hfe := freshEngine_eq w c sources
  have hopen : (freshEngine w c sources).errChClosed = false := by rw [hfe]; rfl
  obtain ⟨hcons, hlive, hacc⟩ := Run.exec_live Sum256 _ ctx q now schedule s hctx hopen hno h
  have hst := (Run.exec_consistent Sum256 _ ctx q now schedule s h).2
  have hsrc : (freshEngine w c sources).sources = sources := by rw [hfe]
  refine ⟨?_, ?_, ?_⟩
  · intro hnr
    refine Run.progress Sum256 _ q s hcons hst hlive ?_ (by rw [hfe]; rfl) hnr
    rw [hfe]
    cases sources with
    | nil => exact Or.inl rfl
    | cons x xs =>
      refine Or.inr ?_
      simp only [NewEngine, NewRateLimiter]
      simp only [List.length_cons] at hc
      push_cast at hc
      omega
  · have := Run.exec_cost Sum256 schedule _ s h
    omega
  · intro js err hm
    cases err with
    | some cause =>
      have := (hcons.returnedErr js cause hm).2
      rw [hlive.ctxLive] at this
      exact absurd this (by simp)
    | none =>
      obtain ⟨h1, h2⟩ := Run.completed _ q s js hcons hlive hacc hm
      have hscr : List.Perm s.scraped sources := by
        have := h2 (by rw [hfe]; exact hw)
        rwa [hsrc] at this
      refine ⟨rfl, hscr, ?_⟩
      exact h1.trans ((List.Perm.flatMap_right _ hscr).map _)

theorem Start_returns_successful_postings_witness :
    Run.exec codePointDigest errorLeftBehind mixedBoards = some mixedBoardsReturned ∧
    mixedBoardsReturned.main = MainState.returned mixedBoardsReturned.jobs none ∧
    mixedBoardsReturned.jobs.map (fun j => j.Title) = ["a1", "a2"] ∧
    List.Perm (mixedBoardsReturned.jobs.map unstamped)
      (([boardA, brokenBoard].flatMap (okJobs "golang")).map unstamped) :=
  ⟨rfl, rfl, by decide,
    ((Start_returns_successful_postings codePointDigest 1 2 [boardA, brokenBoard] Background
      "golang" 0 errorLeftBehind mixedBoardsReturned (by decide) (by decide) rfl (by decide)
      rfl).2.2 mixedBoardsReturned.jobs none rfl).2.2⟩

/-- C14. When `Start` has returned a nil error in a run on a fresh engine whose
context was not cancelled, `GetStats().JobsScraped` equals the length of the
result set, which equals the total number of postings returned by the sources
that were scraped with a nil error, with no deduplication; with at least one
worker these are all the registered sources that succeed. -/
theorem JobsScraped_counts_result (Sum256 : Digest) (w c : Int)
    (sources : List JobSource) (ctx : Context) (q : String) (now : Int)
    (schedule : List Action) (s : Run) (js : List Job)
    (hctx : ctx.err = none) (hno : ∀ a ∈ schedule, a.isCancel = false)
    (h : Run.exec Sum256 schedule ((freshEngine w c sources).Start ctx q now) = some s)
    (hm : s.main = MainState.returned js none) :
    s.e.GetStats.JobsScraped = js.length ∧
    js.length = (s.scraped.flatMap (okJobs q)).length ∧
    (1 ≤ w → js.length = (sources.flatMap (okJobs q)).length) := by
  have hfe := freshEngine_eq w c sources
  have hopen : (freshEngine w c sources).errChClosed = false := by rw [hfe]; rfl
  obtain ⟨hcons, hlive, hacc⟩ := Run.exec_live Sum256 _ ctx q now schedule s hctx hopen hno h
  obtain ⟨h1, h2⟩ := Run.completed _ q s js hcons hlive hacc hm
  have hlen := h1.length_eq
  simp only [List.length_map] at hlen
  refine ⟨?_, hlen, ?_⟩
  · have hj := hcons.jobCount
    rw [← (hcons.returnedOk js hm).1] at hj
    rw [Engine.GetStats, hj, hfe]
    simp [NewEngine]
  · intro hw
    have hscr := h2 (by rw [hfe]; exact hw)
    rw [hfe] at hscr
    rw [hlen]
    exact (List.Perm.flatMap_right (okJobs q) hscr).length_eq

theorem JobsScraped_counts_result_witness :
    Run.exec codePointDigest inTurn threeBoards = some threeBoardsDone ∧
    threeBoardsDone.main = MainState.returned threeBoardsDone.jobs none ∧
    threeBoardsDone.e.GetStats.JobsScraped = 6 ∧ threeBoardsDone.jobs.length = 6 ∧
    threeBoardsDone.e.GetStats.Errors = 0 ∧
    threeBoardsDone.e.GetStats.JobsScraped = threeBoardsDone.jobs.length :=
  ⟨rfl, rfl, by decide, by decide, by decide,
    (JobsScraped_counts_result codePointDigest 3 3 [boardA, boardB, boardC] Background
      "golang" 0 inTurn threeBoardsDone threeBoardsDone.jobs rfl (by decide) rfl rfl).1⟩

/-- C15. In a run on a fresh engine with at least one worker and a positive
limiter capacity, under a context that is not cancelled: no goroutine panics,
as long as `Start` has not returned some goroutine can take a step, and no
schedule is longer than the bound `Run.cost`, so `Start` returns; and the error
it returns is nil, however many sources fail; when every source fails the
result set is empty. -/
theorem Start_returns_nil (Sum256 : Digest) (w c : Int)
    (sources : List JobSource) (ctx : Context) (q : String) (now : Int)
    (schedule : List Action) (s : Run)
    (hw : 1 ≤ w) (hc : 1 ≤ c) (hctx : ctx.err = none)
    (hno : ∀ a ∈ schedule, a.isCancel = false)
    (h : Run.exec Sum256 schedule ((freshEngine w c sources).Start ctx q now) = some s) :
    s.panicked = none ∧
    (s.main.isReturned = false →
      ∃ a : Action, a.isCancel = false ∧ ∃ s' : Run, s.step Sum256 a = some s') ∧
    schedule.length ≤ ((freshEngine w c sources).Start ctx q now).cost ∧
    ∀ (js : List Job) (err : Option CtxErr), s.main = MainState.returned js err →
      err = none ∧ ((∀ source ∈ sources, (source.Scrape q).2 ≠ none) → js = []) := by
  have hfe := freshEngine_eq w c sources
  have hopen : (freshEngine w c sources).errChClosed = false := by rw [hfe]; rfl
  obtain ⟨hcons, hlive, hacc⟩ := Run.exec_live Sum256 _ ctx q now schedule s hctx hopen hno h
  have hst := (Run.exec_consistent Sum256 _ ctx q now schedule s h).2
  refine ⟨hlive.noPanic, ?_, ?_, ?_⟩
  · intro hnr
    refine Run.progress Sum256 _ q s hcons hst hlive ?_ (by rw [hfe]; rfl) hnr
    rw [hfe]
    exact Or.inr hc
  · have := Run.exec_cost Sum256 schedule _ s h
    omega
  · intro js err hm
    cases err with
    | some cause =>
      have := (hcons.returnedErr js cause hm).2
      rw [hlive.ctxLive] at this
      exact absurd this (by simp)
    | none =>
      refine ⟨rfl, ?_⟩
      intro hfail
      obtain ⟨h1, h2⟩ := Run.completed _ q s js hcons hlive hacc hm
      have hscr := h2 (by rw [hfe]; exact hw)
      rw [hfe] at hscr
      have hnil : s.scraped.flatMap (okJobs q) = [] := by
        rw [List.flatMap_eq_nil_iff]
        intro x hx
        have hne := hfail x (hscr.subset hx)
        simp only [okJobs]
        split
        · next hs => rw [hs] at hne; exact absurd rfl hne
        · rfl
      rw [hnil] at h1
      simpa using h1.length_eq

theorem Start_returns_nil_witness :
    Run.exec codePointDigest failThenReturn onlyBroken = some onlyBrokenReturned ∧
    onlyBrokenReturned.main = MainState.returned [] none ∧
    onlyBrokenReturned.panicked = none :=
  ⟨rfl, rfl,
    (Start_returns_nil codePointDigest 1 1 [brokenBoard] Background "golang" 0
      failThenReturn onlyBrokenReturned (by decide) (by decide) rfl (by decide) rfl).1⟩

/-- C13, at the failing input. In the run `mixedBoards` (one good source, one
failing source) under the schedule `errorLeftBehind`, `Start` returns its two
postings and a nil error while the error of the failing invocation is still in
the buffer of `errCh`: at that moment `GetStats().Errors` is 0, not 1. It
becomes 1 only when the error collector, which `Start` does not wait for, takes
its next step. -/
theorem Start_returns_before_errors_are_counted :
    Run.exec codePointDigest errorLeftBehind mixedBoards = some mixedBoardsReturned ∧
    mixedBoardsReturned.main = MainState.returned mixedBoardsReturned.jobs none ∧
    mixedBoardsReturned.scraped.map (fun source => source.Name) = ["A", "Broken"] ∧
    mixedBoardsReturned.errCh = ["Broken scraper failed: boom"] ∧
    mixedBoardsReturned.errCollectorDone = false ∧
    mixedBoardsReturned.e.GetStats.Errors = 0 ∧
    mixedBoardsUnwound.e.GetStats.Errors = 1 := by
  refine ⟨rfl, rfl, by decide, by decide, by decide, by decide, by decide⟩

/-- C16, as stated, fails. In the run `cancellable` the context is cancelled
while the only worker has not finished; under the schedule `doneWins` the worker
then returns, `done` is closed, and `Start` takes the case `<-done`: it returns
a nil error, not `ctx.Err()`, and sets the end time. -/
theorem Start_may_miss_cancellation :
    Run.exec codePointDigest [Action.cancel CtxErr.Canceled] cancellable =
      some cancellableCancelled ∧
    cancellableCancelled.ctx.err = some CtxErr.Canceled ∧
    cancellableCancelled.workers.all Worker.isExited = false ∧
    Run.exec codePointDigest doneWins cancellable = some cancellableDone ∧
    cancellableDone.main = MainState.returned [] none ∧
    cancellableDone.e.stats.EndTime = 9 := by
  refine ⟨rfl, rfl, rfl, rfl, rfl, rfl⟩

/-- C16, amended. In every run of `Start`: if the context is done and the
workers have not all finished when the caller looks at its `select`, the case
`<-done` is not ready and `Start` takes the case `<-ctx.Done()`, returning
`ctx.Err()` and a nil result set; and whenever `Start` has returned a non-nil
error, that error is `ctx.Err()`, the result set is nil, and the end time is
the one the engine had before the run (unset on a fresh engine). -/
theorem Start_cancelled (Sum256 : Digest) (e : Engine) (ctx : Context) (q : String)
    (now : Int) (schedule : List Action) (s : Run)
    (h : Run.exec Sum256 schedule (e.Start ctx q now) = some s) :
    (∀ cause : CtxErr, s.main = MainState.selecting → s.ctx.err = some cause →
      s.workers.all Worker.isExited = false → s.panicked = none →
      s.step Sum256 Action.selectDone = none ∧
      s.step Sum256 Action.selectCtx =
        some { s with main := MainState.returned [] (some cause) }) ∧
    (∀ (js : List Job) (cause : CtxErr), s.main = MainState.returned js (some cause) →
      js = [] ∧ s.ctx.err = some cause ∧ s.e.stats.EndTime = e.stats.EndTime) := by
  have hcons := (Run.exec_consistent Sum256 e ctx q now schedule s h).1
  constructor
  · intro cause hm hc hall hp
    have hd : s.done = false := by
      cases hd : s.done with
      | false => rfl
      | true => rw [(hcons.doneExited hd).1] at hall; exact absurd hall (by simp)
    constructor
    · simp [Run.step, hp, hm, hd]
    · simp [Run.step, hp, hm, hc]
  · intro js cause hm
    obtain ⟨h1, h2⟩ := hcons.returnedErr js cause hm
    refine ⟨h1, h2, hcons.endTime ?_⟩
    intro js' hm'
    rw [hm] at hm'
    simp at hm'

theorem Start_cancelled_witness :
    Run.exec codePointDigest [Action.cancel CtxErr.Canceled] cancellable =
      some cancellableCancelled ∧
    cancellableCancelled.step codePointDigest Action.selectDone = none ∧
    cancellableCancelled.step codePointDigest Action.selectCtx =
      some { cancellableCancelled with
        main := MainState.returned [] (some CtxErr.Canceled) } :=
  ⟨rfl,
    (Start_cancelled codePointDigest (freshEngine 1 1 [boardA]) pendingContext "golang" 0
      [Action.cancel CtxErr.Canceled] cancellableCancelled rfl).1
      CtxErr.Canceled rfl rfl rfl rfl⟩

/-- C20. In every run of `Start`, under every schedule, each posting of the
result set returned with a nil error is a posting that a registered source
returned with a nil error, in which the worker has set Hash to
`generateJobHash` of the posting, whatever Hash the source had put there, and
ScrapedAt to a clock reading, and has changed nothing else; so its Hash is
`generateJobHash` of its own Title, Company and Location. -/
theorem Hash_is_derived (Sum256 : Digest) (e : Engine) (ctx : Context) (q : String)
    (now : Int) (schedule : List Action) (s : Run) (js : List Job)
    (h : Run.exec Sum256 schedule (e.Start ctx q now) = some s)
    (hm : s.main = MainState.returned js none) :
    ∀ job ∈ js, job.Hash = generateJobHash Sum256 job ∧
      ∃ source ∈ e.sources, (source.Scrape q).2 = none ∧
        ∃ job0 ∈ (source.Scrape q).1, ∃ t : Int,
          job = { job0 with Hash := generateJobHash Sum256 job0, ScrapedAt := t } := by
  obtain ⟨hcons, hst⟩ := Run.exec_consistent Sum256 e ctx q now schedule s h
  intro job hjob
  rw [(hcons.returnedOk js hm).1] at hjob
  obtain ⟨source, hsrc, hok, job0, hj0, t, ht⟩ := hst.result job hjob
  refine ⟨?_, source, hsrc, hok, job0, hj0, t, ht⟩
  rw [ht]
  rfl

/-- C17, at the failing input. After a first run that returned two postings,
`Start` on the same engine overwrites the start time only: the counter
`JobsScraped` starts the second run at 2, and when the second run has collected
its own two postings it stands at 4, not at 2. -/
theorem second_run_adds_to_counters :
    Run.exec codePointDigest oneBoard firstRun = some firstRunDone ∧
    firstRunDone.main = MainState.returned firstRunDone.jobs none ∧
    firstRunDone.jobs.length = 2 ∧ firstRunDone.e.GetStats.JobsScraped = 2 ∧
    firstRunDone.errCollectorDone = true ∧
    secondRun.e.GetStats.StartTime = 10 ∧ secondRun.e.GetStats.JobsScraped = 2 ∧
    Run.exec codePointDigest oneBoardAgain secondRun = some secondRunCollected ∧
    secondRunCollected.jobs.length = 2 ∧
    secondRunCollected.e.GetStats.JobsScraped = 4 := by
  refine ⟨rfl, rfl, rfl, rfl, rfl, rfl, rfl, rfl, rfl, rfl⟩

/-- C18, at the failing input. After a first run that has returned and whose
goroutines have all unwound, the channel `errCh` of the engine is closed. In a
second run on that engine, once the worker has returned, the goroutine that
should close `done` panics with "close of closed channel" at `close(e.errCh)`:
`Start` has not returned, and no goroutine can take a step any more. -/
theorem second_run_panics :
    firstRunDone.e.errChClosed = true ∧
    Run.exec codePointDigest (oneBoardAgain ++ [Action.close]) secondRun =
      some secondRunClosing ∧
    secondRunClosing.panicked = some closeOfClosedChannel ∧
    secondRunClosing.main.isReturned = false ∧ secondRunClosing.done = false ∧
    ∀ a : Action, secondRunClosing.step codePointDigest a = none := by
  refine ⟨rfl, rfl, rfl, rfl, rfl, ?_⟩
  intro a
  rfl

/-- After a run in which `Start` has returned a nil error, the channel `errCh`
of the engine is closed. -/
theorem errCh_closed_after_run (Sum256 : Digest) (e : Engine) (ctx : Context) (q : String)
    (now : Int) (schedule : List Action) (s : Run) (js : List Job)
    (h : Run.exec Sum256 schedule (e.Start ctx q now) = some s)
    (hm : s.main = MainState.returned js none) : s.e.errChClosed = true := by
  have hcons := (Run.exec_consistent Sum256 e ctx q now schedule s h).1
  exact (hcons.doneExited (hcons.returnedOk js hm).2.2).2.2

/-- C19, at the failing input. A first run on a fresh engine whose only source
fails returns a nil error, its error is collected, and the channel `errCh` of
the engine is left closed. In a second run on that engine the worker takes the
source, gets a token and calls `Scrape`, which returns a posting together with
the error "boom"; the worker's send of "Broken scraper failed: boom" on `e.errCh`
then panics with "send on closed channel": no error is pushed or counted, the
worker does not go on to the next source, `Start` has not returned, and no
goroutine can take a step any more. -/
theorem failed_scrape_on_reused_engine_panics :
    Run.exec codePointDigest (failThenReturn ++ [Action.collectErr, Action.collectErr])
      brokenFirst = some brokenFirstDone ∧
    brokenFirstDone.main = MainState.returned [] none ∧
    brokenFirstDone.errors = ["Broken scraper failed: boom"] ∧
    brokenFirstDone.errCollectorDone = true ∧
    brokenFirstDone.e.errChClosed = true ∧
    brokenSecond.e.rateLimiter.tokens = 1 ∧ brokenSecond.ctx.err = none ∧
    brokenBoard.Scrape "golang" = ([postingTitled "partial"], some "boom") ∧
    Run.exec codePointDigest [Action.worker 0 11, Action.worker 0 12] brokenSecond =
      some brokenSecondFailing ∧
    brokenSecondFailing.workers = [Worker.failing "Broken scraper failed: boom"] ∧
    brokenSecondFailing.scraped.map (fun source => source.Name) = ["Broken"] ∧
    brokenSecondFailing.jobsCh = [] ∧ brokenSecondFailing.jobs = [] ∧
    brokenSecondFailing.step codePointDigest (Action.worker 0 13) = some brokenSecondPanicked ∧
    brokenSecondPanicked.panicked = some sendOnClosedChannel ∧
    brokenSecondPanicked.errCh = [] ∧ brokenSecondPanicked.errors = [] ∧
    brokenSecondPanicked.e.GetStats.Errors = brokenSecond.e.GetStats.Errors ∧
    brokenSecondPanicked.workers = [Worker.failing "Broken scraper failed: boom"] ∧
    brokenSecondPanicked.main.isReturned = false ∧
    ∀ a : Action, brokenSecondPanicked.step codePointDigest a = none := by
  refine ⟨rfl, rfl, rfl, rfl, rfl, rfl, rfl, rfl, rfl, rfl, rfl, rfl, rfl, rfl, rfl, rfl, rfl,
    rfl, rfl, rfl, ?_⟩
  intro a
  rfl

/-- In a run whose channel `errCh` is open and not full: when a worker's `Wait`
succeeds and `Scrape` returns a non-nil error, together with whatever postings,
the worker's step leaves the posting channel, the collected postings and the
error channel as they are and only has the wrapped error
"<Name> scraper failed: <error>" to send; its next step appends exactly that one
message to `errCh` and puts the worker back at the receive of the next source,
again without touching the postings. -/
theorem failed_scrape_pushes_one_error (Sum256 : Digest) (s : Run) (id : Nat)
    (now now' : Int) (source : JobSource) (js : List Job) (err : String)
    (hp : s.panicked = none) (hw : s.workers[id]? = some (Worker.waiting source))
    (hctx : s.ctx.err = none) (ht : 0 < s.e.rateLimiter.tokens)
    (hs : source.Scrape s.query = (js, some err))
    (hopen : s.e.errChClosed = false) (hroom : s.errCh.length < errChCap) :
    ∃ s1 s2 : Run,
      s.step Sum256 (Action.worker id now) = some s1 ∧
      s1.step Sum256 (Action.worker id now') = some s2 ∧
      s1.workers =
        s.workers.set id (Worker.failing (source.Name ++ " scraper failed: " ++ err)) ∧
      s1.jobsCh = s.jobsCh ∧ s1.jobs = s.jobs ∧ s1.errCh = s.errCh ∧
      s2.errCh = s.errCh ++ [source.Name ++ " scraper failed: " ++ err] ∧
      s2.workers = s.workers.set id Worker.ready ∧
      s2.jobsCh = s.jobsCh ∧ s2.jobs = s.jobs := by
  have hlt : id < s.workers.length := (List.getElem?_eq_some.mp hw).1
  have e1 := Transition.step_eq Sum256 _ _ _
    (Transition.scrapeFailed s id now source js err hp hw hctx ht hs)
  refine ⟨_, _, e1, Transition.step_eq Sum256 _ _ _
      (Transition.errPush _ id now' (source.Name ++ " scraper failed: " ++ err) hp
        (List.getElem?_set_self hlt) hopen hroom), rfl, rfl, rfl, rfl, rfl, ?_, rfl, rfl⟩
  simp only [List.set_set]

theorem failed_scrape_pushes_one_error_witness :
    onlyBrokenWaiting.workers[0]? = some (Worker.waiting brokenBoard) ∧
    brokenBoard.Scrape onlyBrokenWaiting.query = ([postingTitled "partial"], some "boom") ∧
    ∃ s1 s2 : Run,
      onlyBrokenWaiting.step codePointDigest (Action.worker 0 2) = some s1 ∧
      s1.step codePointDigest (Action.worker 0 3) = some s2 ∧
      s1.workers =
        onlyBrokenWaiting.workers.set 0
          (Worker.failing (brokenBoard.Name ++ " scraper failed: " ++ "boom")) ∧
      s1.jobsCh = onlyBrokenWaiting.jobsCh ∧ s1.jobs = onlyBrokenWaiting.jobs ∧
      s1.errCh = onlyBrokenWaiting.errCh ∧
      s2.errCh = onlyBrokenWaiting.errCh ++ [brokenBoard.Name ++ " scraper failed: " ++ "boom"] ∧
      s2.workers = onlyBrokenWaiting.workers.set 0 Worker.ready ∧
      s2.jobsCh = onlyBrokenWaiting.jobsCh ∧ s2.jobs = onlyBrokenWaiting.jobs :=
  ⟨rfl, rfl,
    failed_scrape_pushes_one_error codePointDigest onlyBrokenWaiting 0 2 3 brokenBoard
      [postingTitled "partial"] "boom" rfl rfl rfl (by decide) rfl rfl (by decide)⟩

theorem Hash_is_derived_witness :
    Run.exec codePointDigest oneStale staleRun = some staleRunDone ∧
    staleRunDone.main = MainState.returned staleRunDone.jobs none ∧
    staleRunDone.jobs.map (fun j => j.Title) = ["s1"] ∧
    staleRunDone.jobs.map (fun j => decide (j.Hash = "stale")) = [false] ∧
    ∀ job ∈ staleRunDone.jobs, job.Hash = generateJobHash codePointDigest job ∧
      ∃ source ∈ (freshEngine 1 1 [staleBoard]).sources, (source.Scrape "golang").2 = none ∧
        ∃ job0 ∈ (source.Scrape "golang").1, ∃ t : Int,
          job = { job0 with Hash := generateJobHash codePointDigest job0, ScrapedAt := t } :=
  ⟨rfl, rfl, by decide, by decide,
    Hash_is_derived codePointDigest (freshEngine 1 1 [staleBoard]) Background "golang" 0
      oneStale staleRunDone staleRunDone.jobs rfl rfl⟩


/-- The step of a worker that stands in `Wait` is one iteration of the loop of
`ratelimit.Wait`: when that iteration returns, the worker's step leaves the
limiter as `Wait` leaves it, and an error returned by `Wait` is what the worker
wraps and has to send. -/
theorem Run.stepWorker_waiting (Sum256 : Digest) (s : Run) (id : Nat) (now : Int)
    (source : JobSource) (r : WaitResult)
    (hw : s.workers[id]? = some (Worker.waiting source))
    (hr : Wait [[]] s.ctx s.e.rateLimiter = some r) :
    ∃ s' : Run, s.stepWorker Sum256 id now = some s' ∧ s'.e.rateLimiter = r.rl ∧
      ∀ cause : CtxErr, r.err = some cause →
        s'.workers =
          s.workers.set id (Worker.failing ("rate limiter error: " ++ cause.Error)) := by
  rw [Wait_cons] at hr
  simp only [applyEnv, List.foldl_nil] at hr
  cases hc : s.ctx.err with
  | some cause =>
    simp only [hc, Option.some.injEq] at hr
    subst hr
    cases hstep : s.stepWorker Sum256 id now with
    | none => simp [Run.stepWorker, hw, hc] at hstep
    | some s' =>
      simp only [Run.stepWorker, hw, hc, Option.some.injEq] at hstep
      subst hstep
      refine ⟨_, rfl, rfl, ?_⟩
      intro c hcc
      simp only [Option.some.injEq] at hcc
      rw [hcc]
  | none =>
    simp only [hc] at hr
    by_cases ht : 0 < s.e.rateLimiter.tokens
    · rw [tryAcquire_of_pos _ ht] at hr
      simp only [Option.some.injEq] at hr
      subst hr
      cases hs : source.Scrape s.query with
      | mk js eo =>
        cases hstep : s.stepWorker Sum256 id now with
        | none =>
          cases eo <;> simp [Run.stepWorker, hw, hc, tryAcquire_of_pos _ ht, hs] at hstep
        | some s' =>
          cases eo with
          | none =>
            simp only [Run.stepWorker, hw, hc, tryAcquire_of_pos _ ht, hs,
              Option.some.injEq] at hstep
            subst hstep
            exact ⟨_, rfl, rfl, fun c hcc => absurd hcc (by simp)⟩
          | some err =>
            simp only [Run.stepWorker, hw, hc, tryAcquire_of_pos _ ht, hs,
              Option.some.injEq] at hstep
            subst hstep
            exact ⟨_, rfl, rfl, fun c hcc => absurd hcc (by simp)⟩
    · rw [tryAcquire_of_nonpos _ (not_lt.mp ht)] at hr
      simp [Wait] at hr

/-- In a run on an engine with at least one worker whose context is not
cancelled, once every worker has returned and the buffer of `errCh` is empty,
the counter `Errors` has grown by the number of sources whose `Scrape` returned
an error. -/
theorem Run.errors_counted (e : Engine) (q : String) (s : Run)
    (hc : s.Consistent e q) (hl : s.Live) (ha : s.Accounted e q) (hw : 1 ≤ e.workers)
    (hall : s.workers.all Worker.isExited = true) (hch : s.errCh = []) :
    s.e.stats.Errors = e.stats.Errors + ((e.sources.flatMap (failureOf q)).length : Int) := by
  have hlen : 0 < s.workers.length := by rw [hc.workerCount]; omega
  obtain ⟨w, hwm⟩ := List.exists_mem_of_length_pos hlen
  have hq := hl.drained w hwm ((List.all_eq_true.mp hall) w hwm)
  have hf := ha.failures
  rw [sum_map_exited _ rfl _ hall, hch, hq] at hf
  simp only [List.flatMap_nil, Multiset.coe_nil, add_zero, Multiset.coe_eq_coe] at hf
  rw [hc.errCount, hf.length_eq]

end scraper

/-! ## The mock adapter, the order of the postings, and engines that cannot scrape -/

namespace ratelimit

theorem Op.step_dry (C : Int) (hC : C ≤ 0) (op : Op) :
    op.step (NewRateLimiter C) = (false, NewRateLimiter C) := by
  cases op with
  | acquire => exact tryAcquire_of_nonpos _ hC
  | tick => simp [Op.step, refillTokens, NewRateLimiter]

theorem runOps_dry (C : Int) (hC : C ≤ 0) (ops : List Op) :
    runOps ops (NewRateLimiter C) = NewRateLimiter C := by
  induction ops with
  | nil => rfl
  | cons op ops ih =>
    simp only [runOps, List.foldl_cons, Op.step_dry C hC]
    exact ih

theorem successes_dry (C : Int) (hC : C ≤ 0) (ops : List Op) :
    successes ops (NewRateLimiter C) = 0 := by
  induction ops with
  | nil => rfl
  | cons op ops ih =>
    simp only [successes, Op.step_dry C hC, ih]
    simp

theorem applyEnv_dry (evs : List EnvEvent) :
    ∀ (ctx : Context) (rl : RateLimiter), rl.tokens ≤ 0 → rl.maxTokens ≤ 0 →
      (applyEnv evs (ctx, rl)).2.tokens ≤ 0 ∧ (applyEnv evs (ctx, rl)).2.maxTokens ≤ 0 := by
  induction evs with
  | nil => intro ctx rl h1 h2; exact ⟨h1, h2⟩
  | cons ev evs ih =>
    intro ctx rl h1 h2
    simp only [applyEnv, List.foldl_cons]
    cases ev with
    | tick =>
      simp only [EnvEvent.apply]
      by_cases hr : rl.refilling = true
      · exact ih ctx _ (by simp [refillTokens, hr, h2]) (by simp [refillTokens, hr, h2])
      · exact ih ctx _ (by simp [refillTokens, hr, h1]) (by simp [refillTokens, hr, h2])
    | cancel cause =>
      simp only [EnvEvent.apply]
      exact ih _ rl h1 h2

theorem Wait_dry :
    ∀ (schedule : List (List EnvEvent)) (ctx : Context) (rl : RateLimiter) (res : WaitResult),
      rl.tokens ≤ 0 → rl.maxTokens ≤ 0 → Wait schedule ctx rl = some res →
      ∃ cause : CtxErr, res.err = some cause ∧ res.ctx.err = some cause ∧
        res.calls.count true = 0 := by
  intro schedule
  induction schedule with
  | nil => intro ctx rl res _ _ h; simp [Wait] at h
  | cons evs rest ih =>
    intro ctx rl res h1 h2 h
    rw [Wait_cons] at h
    obtain ⟨h3, h4⟩ := applyEnv_dry evs ctx rl h1 h2
    cases hctx : (applyEnv evs (ctx, rl)).1.err with
    | some e =>
      simp only [hctx, Option.some.injEq] at h
      subst h
      exact ⟨e, rfl, hctx, by simp⟩
    | none =>
      simp only [hctx] at h
      rw [tryAcquire_of_nonpos _ h3] at h
      simp only [Option.map_eq_some'] at h
      obtain ⟨r, hr, hres⟩ := h
      subst hres
      obtain ⟨c, k1, k2, k3⟩ := ih _ _ r h3 h4 hr
      exact ⟨c, k1, k2, by simpa [List.count_cons] using k3⟩

end ratelimit

namespace scraper

open models ratelimit

theorem indeedJobs_length (r : Rand) (clock : Nat → Int) (query : String) :
    ∀ n i call : Nat, (indeedJobs r clock query n i call).length = n := by
  intro n
  induction n with
  | zero => intro i call; rfl
  | succ n ih => intro i call; simp only [indeedJobs, List.length_cons, ih]

theorem indeedJobTitles_getD : ∀ i : Nat, i < 8 → indeedJobTitles.getD i "" ≠ "" := by
  decide

theorem indeedCompanies_getD : ∀ i : Nat, i < 5 → indeedCompanies.getD i "" ≠ "" := by
  decide

theorem indeedJob_fields (r : Rand) (now : Int) (query : String) (call : Nat) :
    (indeedJob r now query call).1.Title ≠ "" ∧ (indeedJob r now query call).1.Company ≠ "" ∧
    (indeedJob r now query call).1.Source = "Indeed" := by
  have h1 := indeedJobTitles_getD (r.ints call % 8) (Nat.mod_lt _ (by decide))
  have h2 := indeedCompanies_getD (r.ints (call + 1) % 5) (Nat.mod_lt _ (by decide))
  unfold indeedJob
  split <;> exact ⟨h1, h2, rfl⟩

theorem indeedJobs_fields (r : Rand) (clock : Nat → Int) (query : String) :
    ∀ (n i call : Nat), ∀ job ∈ indeedJobs r clock query n i call,
      job.Title ≠ "" ∧ job.Company ≠ "" ∧ job.Source = "Indeed" := by
  intro n
  induction n with
  | zero => intro i call job hj; simp [indeedJobs] at hj
  | succ n ih =>
    intro i call job hj
    simp only [indeedJobs, List.mem_cons] at hj
    rcases hj with hj | hj
    · rw [hj]; exact indeedJob_fields r (clock i) query call
    · exact ih _ _ job hj

/-- C21. For every query, every outcome of the random generator and every
reading of the clock, `IndeedScraper.Scrape` returns a nil error and a list of
at least 5 and at most 10 postings, hence not empty, in which every posting has
a Title and a Company that are not empty and a Source equal to the adapter's
`Name()`, which is "Indeed". -/
theorem IndeedScraper_Scrape_postings (r : Rand) (clock : Nat → Int) (query : String) :
    ((NewIndeedScraper r clock).Scrape query).2 = none ∧
    5 ≤ ((NewIndeedScraper r clock).Scrape query).1.length ∧
    ((NewIndeedScraper r clock).Scrape query).1.length ≤ 10 ∧
    ((NewIndeedScraper r clock).Scrape query).1 ≠ [] ∧
    (NewIndeedScraper r clock).Name = "Indeed" ∧
    ∀ job ∈ ((NewIndeedScraper r clock).Scrape query).1,
      job.Title ≠ "" ∧ job.Company ≠ "" ∧ job.Source = (NewIndeedScraper r clock).Name := by
  have hlen : ((NewIndeedScraper r clock).Scrape query).1.length = 5 + r.ints 1 % 6 := by
    simp only [NewIndeedScraper, IndeedScraper.Scrape, indeedJobs_length, Rand.Intn]
  have hlt : r.ints 1 % 6 < 6 := Nat.mod_lt _ (by decide)
  refine ⟨rfl, by omega, by omega, ?_, rfl, ?_⟩
  · intro h
    rw [h] at hlen
    simp only [List.length_nil] at hlen
    omega
  · intro job hj
    exact indeedJobs_fields r clock query _ _ _ job hj

theorem IndeedScraper_Scrape_postings_witness :
    ((NewIndeedScraper sampleOutcome (fun _ => 0)).Scrape "golang").1.length = 9 ∧
    ∀ job ∈ ((NewIndeedScraper sampleOutcome (fun _ => 0)).Scrape "golang").1,
      job.Title ≠ "" ∧ job.Company ≠ "" ∧
        job.Source = (NewIndeedScraper sampleOutcome (fun _ => 0)).Name :=
  ⟨by decide,
    (IndeedScraper_Scrape_postings sampleOutcome (fun _ => 0) "golang").2.2.2.2.2⟩

theorem Run.progress_of_all_exited (Sum256 : Digest) (e : Engine) (q : String) (s : Run)
    (hc : s.Consistent e q) (hl : s.Live)
    (hall : s.workers.all Worker.isExited = true) (hnr : s.main.isReturned = false) :
    ∃ a : Action, a.isCancel = false ∧ ∃ s' : Run, s.step Sum256 a = some s' := by
  have hp := hl.noPanic
  cases hd : s.done with
  | false =>
    have hx : s.e.errChClosed = false := by rw [hl.errOpen, hd]
    exact ⟨Action.close, rfl, _,
      Transition.step_eq Sum256 _ _ _ (Transition.closeAll s hp hd hall hx)⟩
  | true =>
    cases hm : s.main with
    | selecting =>
      exact ⟨Action.selectDone, rfl, _,
        Transition.step_eq Sum256 _ _ _ (Transition.selectDone s hp hm hd)⟩
    | draining =>
      cases hcd : s.collectorDone with
      | true =>
        exact ⟨Action.finish 0, rfl, _,
          Transition.step_eq Sum256 _ _ _ (Transition.finish s 0 hp hm hcd)⟩
      | false =>
        cases hq : s.jobsCh with
        | nil =>
          exact ⟨Action.collect, rfl, _,
            Transition.step_eq Sum256 _ _ _
              (Transition.collectEnd s hp hcd hq (hc.doneExited hd).2.1)⟩
        | cons job rest =>
          exact ⟨Action.collect, rfl, _,
            Transition.step_eq Sum256 _ _ _ (Transition.collectJob s job rest hp hcd hq)⟩
    | returned js err =>
      rw [hm] at hnr
      exact absurd hnr (by simp [MainState.isReturned])

theorem Run.exec_no_workers (Sum256 : Digest) (e : Engine) (ctx : Context) (q : String)
    (now : Int) (schedule : List Action) (s : Run)
    (hw : e.workers ≤ 0) (hfull : e.rateLimiter.tokens = e.rateLimiter.maxTokens)
    (h : Run.exec Sum256 schedule (e.Start ctx q now) = some s) :
    s.workers = [] ∧ s.scraped = [] ∧ s.e.rateLimiter = e.rateLimiter ∧
      s.sourceCh = e.sources ∧ s.errCh = [] ∧ s.errors = [] ∧ s.jobs = [] ∧ s.jobsCh = [] := by
  have hz : e.workers.toNat = 0 := by omega
  refine Run.exec_invariant Sum256
    (fun s => s.workers = [] ∧ s.scraped = [] ∧ s.e.rateLimiter = e.rateLimiter ∧
      s.sourceCh = e.sources ∧ s.errCh = [] ∧ s.errors = [] ∧ s.jobs = [] ∧ s.jobsCh = [])
    (fun _ => True) ?_ schedule _ s (fun _ _ => trivial)
    ⟨by simp [Engine.Start, hz], rfl, rfl, rfl, rfl, rfl, rfl, rfl⟩ h
  intro a s1 s2 _ hP ht
  obtain ⟨k1, k2, k3, k4, k5, k6, k7, k8⟩ := hP
  cases ht with
  | workerExit _ id now hp hw hq => rw [k1] at hw; simp at hw
  | workerQuit _ id now source rest cause hp hw hq hc => rw [k1] at hw; simp at hw
  | workerTake _ id now source rest hp hw hq hc => rw [k1] at hw; simp at hw
  | waitCancelled _ id now source cause hp hw hc => rw [k1] at hw; simp at hw
  | scrapeFailed _ id now source sourceJobs err hp hw hc ht hs => rw [k1] at hw; simp at hw
  | scrapeOk _ id now source sourceJobs hp hw hc ht hs => rw [k1] at hw; simp at hw
  | errPanic _ id now msg hp hw hx => rw [k1] at hw; simp at hw
  | errPush _ id now msg hp hw hx hl => rw [k1] at hw; simp at hw
  | jobPanic _ id now source job rest hp hw hx => rw [k1] at hw; simp at hw
  | jobPush _ id now source job rest hp hw hx hl => rw [k1] at hw; simp at hw
  | workerDone _ id source job rest cause hp hw hc => rw [k1] at hw; simp at hw
  | collectJob _ job rest hp hd hq => rw [k8] at hq; simp at hq
  | collectErrItem _ err rest hp hd hq => rw [k5] at hq; simp at hq
  | tick _ hp hr ht => rw [k3] at ht; exact absurd hfull ht
  | _ => exact ⟨k1, k2, k3, k4, k5, k6, k7, k8⟩

/-- C23. On a fresh engine built with a worker count `W ≤ 0`, with any limiter
capacity and any registered sources, in a run whose context is not cancelled:
there is no worker, so `Scrape` is called on no source, no worker ever stands in
`Wait` and the limiter stays as it was built; the sources stay in the queue and
nothing is sent on the error channel. As long as `Start` has not returned some
goroutine can take a step, and no schedule is longer than the bound `Run.cost`,
so `Start` returns; it returns an empty result set and a nil error, with
`JobsScraped == 0` and `Errors == 0`. -/
theorem Start_without_workers (Sum256 : Digest) (w c : Int)
    (sources : List JobSource) (ctx : Context) (q : String) (now : Int)
    (schedule : List Action) (s : Run)
    (hw : w ≤ 0) (hctx : ctx.err = none) (hno : ∀ a ∈ schedule, a.isCancel = false)
    (h : Run.exec Sum256 schedule ((freshEngine w c sources).Start ctx q now) = some s) :
    s.workers = [] ∧ s.scraped = [] ∧ s.e.rateLimiter = NewRateLimiter c ∧
    s.sourceCh = sources ∧ s.errCh = [] ∧ s.errors = [] ∧
    (s.main.isReturned = false →
      ∃ a : Action, a.isCancel = false ∧ ∃ s' : Run, s.step Sum256 a = some s') ∧
    schedule.length ≤ ((freshEngine w c sources).Start ctx q now).cost ∧
    ∀ (js : List Job) (err : Option CtxErr), s.main = MainState.returned js err →
      js = [] ∧ err = none ∧ s.e.GetStats.JobsScraped = 0 ∧ s.e.GetStats.Errors = 0 := by
  have hfe := freshEngine_eq w c sources
  have hopen : (freshEngine w c sources).errChClosed = false := by rw [hfe]; rfl
  obtain ⟨hcons, hlive, _⟩ := Run.exec_live Sum256 _ ctx q now schedule s hctx hopen hno h
  obtain ⟨k1, k2, k3, k4, k5, k6, k7, k8⟩ := Run.exec_no_workers Sum256 _ ctx q now schedule s
    (by rw [hfe]; exact hw) (by rw [hfe]; rfl) h
  refine ⟨k1, k2, by rw [k3, hfe]; rfl, by rw [k4, hfe], k5, k6, ?_, ?_, ?_⟩
  · intro hnr
    exact Run.progress_of_all_exited Sum256 _ q s hcons hlive (by rw [k1]; rfl) hnr
  · have := Run.exec_cost Sum256 schedule _ s h
    omega
  · intro js err hm
    cases err with
    | some cause =>
      have := (hcons.returnedErr js cause hm).2
      rw [hlive.ctxLive] at this
      exact absurd this (by simp)
    | none =>
      have hjs := (hcons.returnedOk js hm).1
      have hj := hcons.jobCount
      have he := hcons.errCount
      rw [k7] at hjs hj
      rw [k6] at he
      rw [hfe] at hj he
      refine ⟨hjs, rfl, ?_, ?_⟩
      · simpa [Engine.GetStats, NewEngine] using hj
      · simpa [Engine.GetStats, NewEngine] using he

theorem Start_without_workers_witness :
    Run.exec codePointDigest closeAtOnce noWorkers = some noWorkersDone ∧
    noWorkersDone.main = MainState.returned [] none ∧
    noWorkersDone.scraped = [] ∧ noWorkersDone.sourceCh.map (fun x => x.Name) = ["A"] ∧
    noWorkersDone.e.GetStats.JobsScraped = 0 ∧ noWorkersDone.e.GetStats.Errors = 0 :=
  ⟨rfl, rfl,
    (Start_without_workers codePointDigest 0 3 [boardA] Background "golang" 0 closeAtOnce
      noWorkersDone (by decide) rfl (by decide) rfl).2.1,
    by decide, by decide, by decide⟩

theorem Run.exec_dry (Sum256 : Digest) (e : Engine) (ctx : Context) (q : String)
    (now : Int) (schedule : List Action) (s : Run)
    (h1 : e.rateLimiter.tokens ≤ 0) (h2 : e.rateLimiter.maxTokens ≤ 0)
    (h : Run.exec Sum256 schedule (e.Start ctx q now) = some s) :
    s.e.rateLimiter.tokens ≤ 0 ∧ s.e.rateLimiter.maxTokens ≤ 0 ∧ s.scraped = [] := by
  refine Run.exec_invariant Sum256
    (fun s => s.e.rateLimiter.tokens ≤ 0 ∧ s.e.rateLimiter.maxTokens ≤ 0 ∧ s.scraped = [])
    (fun _ => True) ?_ schedule _ s (fun _ _ => trivial) ⟨h1, h2, rfl⟩ h
  intro a s1 s2 _ hP ht
  obtain ⟨k1, k2, k3⟩ := hP
  cases ht with
  | scrapeFailed _ id now source sourceJobs err hp hw hc ht hs => omega
  | scrapeOk _ id now source sourceJobs hp hw hc ht hs => omega
  | tick _ hp hr ht => exact ⟨k2, k2, k3⟩
  | _ => exact ⟨k1, k2, k3⟩

/-- C24. For a limiter built with a capacity `C ≤ 0`: after every sequence of
`tryAcquire` calls and refill ticks the limiter is as `NewRateLimiter` made it,
with `C` tokens, no call of `tryAcquire` in the sequence has succeeded, and
`tryAcquire` fails and changes nothing; from every such state and under every
schedule of ticks and cancellations, `Wait` returns, if it returns, the error of
its context, which is then done, without having taken a token; and in a run of
an engine with such a limiter, under every schedule, `Scrape` is called on no
source. -/
theorem nonpositive_capacity_never_acquires (C : Int) (hC : C ≤ 0) :
    (∀ ops : List Op,
      runOps ops (NewRateLimiter C) = NewRateLimiter C ∧
      (runOps ops (NewRateLimiter C)).tokens = C ∧
      successes ops (NewRateLimiter C) = 0 ∧
      tryAcquire (runOps ops (NewRateLimiter C)) = (false, runOps ops (NewRateLimiter C))) ∧
    (∀ (ops : List Op) (schedule : List (List EnvEvent)) (ctx : Context) (res : WaitResult),
      Wait schedule ctx (runOps ops (NewRateLimiter C)) = some res →
      ∃ cause : CtxErr, res.err = some cause ∧ res.ctx.err = some cause ∧
        res.calls.count true = 0) ∧
    (∀ (Sum256 : Digest) (w : Int) (sources : List JobSource) (ctx : Context) (q : String)
      (now : Int) (schedule : List Action) (s : Run),
      Run.exec Sum256 schedule ((freshEngine w C sources).Start ctx q now) = some s →
      s.scraped = [] ∧ s.e.rateLimiter.tokens ≤ 0) := by
  refine ⟨?_, ?_, ?_⟩
  · intro ops
    rw [runOps_dry C hC ops]
    exact ⟨rfl, rfl, successes_dry C hC ops, tryAcquire_of_nonpos _ hC⟩
  · intro ops schedule ctx res h
    rw [runOps_dry C hC ops] at h
    exact Wait_dry schedule ctx _ res hC hC h
  · intro Sum256 w sources ctx q now schedule s h
    have hfe := freshEngine_eq w C sources
    have := Run.exec_dry Sum256 _ ctx q now schedule s
      (by rw [hfe]; exact hC) (by rw [hfe]; exact hC) h
    exact ⟨this.2.2, this.1⟩

theorem nonpositive_capacity_never_acquires_witness :
    (-1 : Int) ≤ 0 ∧
    runOps [Op.acquire, Op.tick, Op.acquire] (NewRateLimiter (-1)) = NewRateLimiter (-1) ∧
    successes [Op.acquire, Op.tick, Op.acquire] (NewRateLimiter (-1)) = 0 ∧
    (Wait [[], [EnvEvent.tick], [EnvEvent.cancel CtxErr.Canceled]] Background
      (NewRateLimiter (-1))).map (fun res => res.err) = some (some CtxErr.Canceled) :=
  ⟨by decide,
    ((nonpositive_capacity_never_acquires (-1) (by decide)).1
      [Op.acquire, Op.tick, Op.acquire]).1,
    ((nonpositive_capacity_never_acquires (-1) (by decide)).1
      [Op.acquire, Op.tick, Op.acquire]).2.2.1,
    by decide⟩

end scraper
